import Mathlib

set_option maxRecDepth 4000

/-!
Verification development for the MyMovieProject batch pipeline
(scripts/build_movie_details.py, scripts/build_indices.py,
scripts/backfill_people.py, scripts/update_data.py).

The Python scripts are shallowly embedded: JSON values become an inductive
`Json` type, HTTP traffic becomes oracle lists of transport outcomes, the
on-disk cache becomes an association list, and file writes become explicit
micro-step sequences so that interrupted writes can be observed.
-/

/-- A JSON value, as manipulated by the Python scripts (dicts are
association lists in document order). -/
inductive Json where
  | null : Json
  | b : Bool → Json
  | i : Int → Json
  | s : String → Json
  | arr : List Json → Json
  | obj : List (String × Json) → Json
deriving Repr

/-- Python truthiness of a JSON value (`None`, `False`, `0`, `""`, `[]`,
`{}` are falsy). -/
def Json.truthy : Json → Bool
  | .null => false
  | .b v => v
  | .i n => n != 0
  | .s v => v != ""
  | .arr xs => !xs.isEmpty
  | .obj fs => !fs.isEmpty

/-- First-match lookup in a JSON object's field list (Python dicts have
unique keys, so first match is the match). Missing key gives `null`,
mirroring `dict.get(k)` returning `None`. -/
def jlookup : List (String × Json) → String → Json
  | [], _ => .null
  | (k, v) :: rest, key => if k = key then v else jlookup rest key

/-- `j.get(k)` on a dict; the modelled code only calls `.get` on values
known to be dicts (see `pyDictGet` for the raising variant used where the
source can crash). -/
def Json.get : Json → String → Json
  | .obj fs, k => jlookup fs k
  | _, _ => .null

/-- Python `a or b` on JSON values. -/
def pyOr (a b : Json) : Json := if a.truthy then a else b

/-- Python `str(...)` restricted to the scalar values that can reach the
`errorCode` comparison; container reprs are abstracted (they start with a
bracket so they never equal a digit string such as "320011"). -/
def pyStr : Json → String
  | .s v => v
  | .i n => toString n
  | .b true => "True"
  | .b false => "False"
  | .null => "None"
  | .arr _ => "[...]"
  | .obj _ => "\x7b...\x7d"

/-- Python `a or b` on strings (`""` is the only falsy string). -/
def pyOrS (a b : String) : String := if a = "" then b else a

/-- An empty JSON object, Python `{}`. -/
def jEmptyObj : Json := .obj []

/-! ## scripts/build_movie_details.py : HTTP layer `_get` -/

namespace BMD

/-- One transport-level outcome of `SESSION.get` inside `_get`: a non-200
status (raises RuntimeError), a network/JSON-parse exception, or a parsed
200 body. -/
inductive Resp where
  | httpErr (code : Nat) : Resp
  | netErr : Resp
  | ok (js : Json) : Resp
deriving Repr

/-- Result of `_get`: a returned body, a raised `QuotaError` (KOFIC fault
with errorCode 320011), or a raised ordinary error after the retries. -/
inductive GetResult where
  | ok (js : Json) : GetResult
  | quota (fault : Json) : GetResult
  | err : GetResult
deriving Repr

/-- One attempt of the `_get` body: `Sum.inl` is a control-flow exit
(return or uncaught `QuotaError`), `Sum.inr ()` is a caught exception that
the loop retries (non-200 status, network error, non-quota fault). -/
def attemptOutcome : Resp → GetResult ⊕ Unit
  | .httpErr _ => .inr ()
  | .netErr => .inr ()
  | .ok js =>
    let fault := pyOr (js.get "faultInfo") (js.get "faultResult")
    if fault.truthy then
      if pyStr (pyOr (fault.get "errorCode") (.s "")) = "320011" then
        .inl (.quota fault)
      else
        .inr ()
    else
      .inl (.ok js)

/-- The `for attempt in range(n)` loop of `_get`, run against an oracle
list of transport outcomes; returns the result together with the number of
transport attempts actually consumed. Exhausting the attempt budget
re-raises the last error (`GetResult.err`). -/
def getFrom : List Resp → Nat → GetResult × Nat
  | _, 0 => (.err, 0)
  | [], _ + 1 => (.err, 0)
  | r :: rs, n + 1 =>
    match attemptOutcome r with
    | .inl res => (res, 1)
    | .inr _ =>
      let p := getFrom rs n
      (p.1, p.2 + 1)

/-- `_get`: at most 3 attempts. -/
def pyGet (resps : List Resp) : GetResult × Nat := getFrom resps 3

/-- A transport outcome is transient for `_get` when the generic handler
catches it and the loop retries: non-200, network error, or a non-quota
fault body. -/
def transient (r : Resp) : Bool :=
  match attemptOutcome r with
  | .inl _ => false
  | .inr _ => true

/-- A 200 response whose body is the documented daily-quota fault payload. -/
def quotaResp (extra : List (String × Json)) : Resp :=
  .ok (.obj [("faultInfo", .obj (("errorCode", .s "320011") :: extra))])

end BMD

example :
    BMD.pyGet [BMD.quotaResp [], .ok jEmptyObj]
      = (.quota (.obj [("errorCode", .s "320011")]), 1) := rfl

example :
    BMD.pyGet [.httpErr 500, BMD.quotaResp [("msg", .s "x")]]
      = (.quota (.obj [("errorCode", .s "320011"), ("msg", .s "x")]), 2) := rfl

/-! ## scripts/build_movie_details.py : helpers, cache and main loop -/

/-- The digit characters of `s`, in order. -/
def digitsOnly (s : String) : String := String.mk (s.data.filter Char.isDigit)

/-- Python `int(...)` on an all-digit string (structural, so that concrete
inputs evaluate; agrees with the usual decimal reading). -/
def digitsToNat (s : String) : Nat :=
  s.data.foldl (fun n c => n * 10 + (c.toNat - '0'.toNat)) 0

/-- Lexicographic comparison of char lists by code point. -/
def charListLe : List Char → List Char → Bool
  | [], _ => true
  | _ :: _, [] => false
  | a :: as, b :: bs =>
    if a.toNat < b.toNat then true
    else if a.toNat = b.toNat then charListLe as bs
    else false

/-- `a <= b` on strings, code-point lexicographic — the order Python uses
(structural, so concrete inputs evaluate). -/
def strLe (a b : String) : Bool := charListLe a.data b.data

/-- Python `str.strip()`: drop leading and trailing whitespace. -/
def pyStrip (s : String) : String :=
  String.mk (((s.data.dropWhile Char.isWhitespace).reverse.dropWhile
    Char.isWhitespace).reverse)

/-- `js.get(k, d)` specialised to the string fields the pipeline writes
(a non-string value collapses to the default). -/
def Json.getStrD (js : Json) (k d : String) : String :=
  match js.get k with
  | .s v => v
  | _ => d

namespace BMD

/-- `norm_ymd`: keep the digits of the field, truncated to 8; a falsy
value (absent field or empty string) gives `""`. -/
def norm_ymd (v : Json) : String :=
  if !v.truthy then "" else (digitsOnly (pyStr v)).take 8

/-- `y_from_open_dt`: first 4 characters when at least 4 are present,
else the literal "unknown" bucket. -/
def y_from_open_dt (openDtYmd : String) : String :=
  if openDtYmd.length ≥ 4 then openDtYmd.take 4 else "unknown"

/-- One cached detail file, the payload `build_for_year` writes
(`movieInfo` is the raw upstream record; `audiAcc` is present exactly when
it was computed, always as an int). -/
structure Payload where
  movieCd : String
  movieNm : String
  openDt : String
  prdtYear : String
  movieInfo : Json
  audiAcc : Option Int
deriving Repr

/-- The on-disk detail cache: one record per (year-bucket, movieCd) path
`docs/data/movies/<bucket>/<movieCd>.json`. -/
abbrev Cache := List ((String × String) × Payload)

/-- Read the record at a path, if present. -/
def Cache.find : Cache → String × String → Option Payload
  | [], _ => none
  | (k, p) :: rest, key => if k = key then some p else Cache.find rest key

/-- `save_json` at the cache level: overwrite the record at the path if
present, else create it. -/
def Cache.set : Cache → String × String → Payload → Cache
  | [], key, p => [(key, p)]
  | (k, q) :: rest, key, p =>
    if k = key then (k, p) :: rest else (k, q) :: Cache.set rest key p

/-- Number of cached records carrying a given movieCd, over a full scan. -/
def Cache.countId (c : Cache) (cd : String) : Nat :=
  (c.filter (fun e => e.1.2 = cd)).length

/-- Oracle for one candidate of the per-year loop: `quota` is a
`QuotaError` raised by `fetch_movie_info` or `compute_audi_acc`, `exc` any
other exception (warned and skipped), `ok` the fetched `movieInfo`
together with the already-computed `audiAcc` (None when the API key is
empty or no weekly report mentioned the title). -/
inductive FetchOutcome where
  | quota : FetchOutcome
  | exc : FetchOutcome
  | ok (info : Json) (acc : Option Int) : FetchOutcome
deriving Repr

/-- The payload dict assembled for one fetched candidate. -/
def mkPayload (movieCd : String) (info : Json) (acc : Option Int) : Payload :=
  { movieCd := movieCd
    movieNm := info.getStrD "movieNm" ""
    openDt := norm_ymd (info.get "openDt")
    prdtYear := info.getStrD "prdtYear" ""
    movieInfo := info
    audiAcc := acc }

/-- Year bucket the payload for `movieCd` is saved under:
`movie_detail_path(movie_cd, open_dt or str(year))`. -/
def saveBucket (year : Nat) (info : Json) : String :=
  y_from_open_dt (pyOrS (norm_ymd (info.get "openDt")) (toString year))

/-- The resume check at the top of the loop body: skip the candidate when
`movies/<year>/<movieCd>.json` exists and its `audiAcc` is an int. -/
def existedCheck (cache : Cache) (year : Nat) (movieCd : String) : Bool :=
  match cache.find (toString year, movieCd) with
  | some cur => cur.audiAcc.isSome
  | none => false

/-- Effect of one successfully fetched candidate on the cache: the payload
is written in full (blind overwrite) at the bucket derived from the new
`openDt`. -/
def upsertFetched (cache : Cache) (year : Nat) (movieCd : String)
    (info : Json) (acc : Option Int) : Cache :=
  cache.set (saveBucket year info, movieCd) (mkPayload movieCd info acc)

/-- The candidate loop of `build_for_year`: threads the cache, the saved
counter and the remaining allowance (`i > max_count` breaks); returns
`(cache, saved, stopped_by_quota)`. -/
def buildLoop (year : Nat) :
    List (String × FetchOutcome) → Nat → Cache → Nat → Cache × Nat × Bool
  | [], _, cache, saved => (cache, saved, false)
  | _ :: _, 0, cache, saved => (cache, saved, false)
  | (cd, out) :: rest, rem + 1, cache, saved =>
    if existedCheck cache year cd then
      buildLoop year rest rem cache saved
    else
      match out with
      | .quota => (cache, saved, true)
      | .exc => buildLoop year rest rem cache saved
      | .ok info acc =>
        buildLoop year rest rem (upsertFetched cache year cd info acc) (saved + 1)

/-- `build_for_year`: returns the cache plus `(total, saved, stopped)`. -/
def build_for_year (year : Nat) (cands : List (String × FetchOutcome))
    (maxCount : Nat) (cache : Cache) : Cache × Nat × Nat × Bool :=
  if cands.length = 0 then (cache, 0, 0, false)
  else
    let r := buildLoop year cands maxCount cache 0
    (r.1, cands.length, r.2.1, r.2.2)

/-- The year loop of `main`: accumulates `total_saved` and breaks as soon
as a year reports `stopped_by_quota`. -/
def mainLoop : List (Nat × List (String × FetchOutcome)) → Nat → Cache → Nat →
    Cache × Nat × Bool
  | [], _, cache, acc => (cache, acc, false)
  | (y, cands) :: rest, maxCount, cache, acc =>
    let r := build_for_year y cands maxCount cache
    if r.2.2.2 then (r.1, acc + r.2.2.1, true)
    else mainLoop rest maxCount r.1 (acc + r.2.2.1)

/-- `main`: runs the year loop and falls off the end, so the interpreter
exits with status 0 whether or not the quota stopped the run
(`QuotaError` never escapes `build_for_year`). Returns
`(cache, total_saved, stopped, exit_code)`. -/
def pyMain (plans : List (Nat × List (String × FetchOutcome)))
    (maxCount : Nat) (cache : Cache) : Cache × Nat × Bool × Nat :=
  let r := mainLoop plans maxCount cache 0
  (r.1, r.2.1, r.2.2, 0)

/-- Number of `ok` outcomes in a candidate list segment. -/
def countOk (cands : List (String × FetchOutcome)) : Nat :=
  (cands.filter (fun c => match c.2 with | .ok _ _ => true | _ => false)).length

end BMD

/-! ## File-write micro-step model (save_json atomicity, C3)

Every JSON write in the scripts is decomposed into micro-steps so that an
interruption after any prefix of steps is an observable state. -/

namespace FSW

/-- The file system: path to content, absent files map to `none`. -/
abbrev FS := String → Option String

/-- One micro-step of a writer: opening a file in "w" mode truncates it,
serialization streams append chunks, `Path.replace`/`os.replace` is an
atomic rename over the destination. -/
inductive Step where
  | truncate (path : String) : Step
  | append (path : String) (chunk : String) : Step
  | rename (src dst : String) : Step

/-- Effect of one micro-step. -/
def applyStep (fs : FS) : Step → FS
  | .truncate p => fun q => if q = p then some "" else fs q
  | .append p c => fun q => if q = p then some ((fs p).getD "" ++ c) else fs q
  | .rename src dst => fun q =>
      if q = src then none else if q = dst then fs src else fs q

/-- Run a sequence of micro-steps. -/
def runSteps (fs : FS) : List Step → FS
  | [] => fs
  | st :: rest => runSteps (applyStep fs st) rest

/-- `path.with_suffix(".json.tmp")` on the `<movieCd>.json` cache paths:
the `.json` suffix is replaced by `.json.tmp`, i.e. `.tmp` is appended. -/
def tmpPath (p : String) : String := p ++ ".tmp"

/-- `save_json` of build_movie_details.py and backfill_people.py: stream
the serialized text into the tmp path, then atomically replace it into
place. -/
def atomicSaveSteps (path : String) (chunks : List String) : List Step :=
  Step.truncate (tmpPath path) ::
    (chunks.map (Step.append (tmpPath path)) ++ [Step.rename (tmpPath path) path])

/-- `save_json` of update_data.py: open the destination itself with
`p.open("w")` (truncating the previous content) and stream the
serialization straight into it. -/
def directSaveSteps (path : String) (chunks : List String) : List Step :=
  Step.truncate path :: chunks.map (Step.append path)

/-- Whether a micro-step reads or writes the given path. -/
def touches : Step → String → Bool
  | .truncate p, q => p = q
  | .append p _, q => p = q
  | .rename src dst, q => src = q || dst = q

end FSW

/-! ## scripts/build_indices.py : quota-bounded weekly fetch (C5) -/

namespace IDX

/-- One transport outcome of `self.session.get` inside
`AudiAccEstimator.fetch_week`: an HTTP status with parsed body, or a
`requests.RequestException`. -/
inductive TOutcome where
  | status (code : Nat) (js : Json) : TOutcome
  | netExc : TOutcome
deriving Repr

/-- The `while True` loop of `fetch_week`, run against an oracle list of
transport outcomes (used as fuel: an exhausted oracle yields the sentinel
"oracle_end", where the source would simply await the next outcome).
Each iteration increments `tries` and decrements `self.budget` before the
dispatch; 429/server statuses and early network errors loop again.
Returns `((body, err), final_budget, tries)`. -/
def fetchWeekLoop : List TOutcome → Int → Nat →
    (Option Json × Option String) × Int × Nat
  | [], budget, tries => ((none, some "oracle_end"), budget, tries)
  | o :: rest, budget, tries =>
    let tries' := tries + 1
    let budget' := budget - 1
    match o with
    | .status code js =>
      if code = 200 then ((some js, none), budget', tries')
      else if code ≥ 500 ∨ code = 429 then fetchWeekLoop rest budget' tries'
      else ((none, some ("http_" ++ toString code)), budget', tries')
    | .netExc =>
      if tries' ≥ 5 then ((none, some "network_error"), budget', tries')
      else fetchWeekLoop rest budget' tries'

/-- `fetch_week`: the only budget check is at entry (`self.budget <= 0`);
afterwards the loop decrements once per transport attempt. -/
def fetch_week (budget : Int) (oracle : List TOutcome) :
    (Option Json × Option String) × Int × Nat :=
  if budget ≤ 0 then ((none, some "budget_exhausted"), budget, 0)
  else fetchWeekLoop oracle budget 0

end IDX

example :
    IDX.fetch_week 5 [.status 500 .null, .status 200 jEmptyObj]
      = ((some jEmptyObj, none), 3, 2) := rfl

/-! ## scripts/build_indices.py : scan, rows, people map, sort, artifacts -/

namespace IDX

/-- A calendar date as `datetime` validates it. -/
structure Date where
  y : Nat
  m : Nat
  d : Nat
deriving Repr, DecidableEq

/-- Gregorian leap year, as `datetime` uses. -/
def isLeap (y : Nat) : Bool := (y % 4 = 0 && y % 100 ≠ 0) || y % 400 = 0

/-- Days in a month, as `datetime` validates. -/
def daysInMonth (y m : Nat) : Nat :=
  if m = 2 then (if isLeap y then 29 else 28)
  else if m = 4 ∨ m = 6 ∨ m = 9 ∨ m = 11 then 30
  else 31

/-- The component ranges `datetime(y, m, d)` accepts. -/
def validDate (y m d : Nat) : Bool :=
  1 ≤ y && y ≤ 9999 && 1 ≤ m && m ≤ 12 && 1 ≤ d && d ≤ daysInMonth y m

/-- `ymd_to_date`: falsy input gives None; keep digits; require exactly 8;
`datetime` construction failure (bad component) gives None. -/
def ymd_to_date (ymd : String) : Option Date :=
  if ymd = "" then none
  else
    let s := digitsOnly ymd
    if s.length ≠ 8 then none
    else
      let y := digitsToNat (s.take 4)
      let m := digitsToNat ((s.drop 4).take 2)
      let d := digitsToNat (s.drop 6)
      if validDate y m d then some ⟨y, m, d⟩ else none

/-- Order-preserving encoding of a date (months and days never exceed two
digits, so this agrees with `datetime` comparison). -/
def dateEnc (d : Date) : Nat := d.y * 10000 + d.m * 100 + d.d

/-- `datetime.min` is 0001-01-01. -/
def dateMin : Date := ⟨1, 1, 1⟩

/-- One row of the produced movies index. -/
structure MovieRow where
  movieCd : String
  movieNm : String
  openDt : String
  prdtYear : String
  repNation : String
  grade : String
  genres : List String
  audiAcc : Option Int
deriving Repr, DecidableEq

/-- `sort_key`: the release date alone, with `datetime.min` standing in
for an unparseable or absent date. No tiebreaker. -/
def sort_key (m : MovieRow) : Nat := dateEnc ((ymd_to_date m.openDt).getD dateMin)

/-- `js.get(k) or []` where the loop iterates a list. -/
def jArr (v : Json) : List Json :=
  match v with
  | .arr xs => xs
  | _ => []

/-- `grade = js.get("audits", [{}])[0].get("watchGradeNm", "")`.
(The source raises IndexError when `audits` is present but `[]`; no claim
depends on that corner and it is mapped to `""` here.) -/
def gradeOf (js : Json) : String :=
  match js.get "audits" with
  | .arr (a :: _) => a.getStrD "watchGradeNm" ""
  | _ => ""

/-- The genre-name comprehension: keep truthy `genreNm` values. -/
def genresOf (js : Json) : List String :=
  (jArr (js.get "genres")).filterMap fun g =>
    if (g.get "genreNm").truthy then some (pyStr (g.get "genreNm")) else none

/-- The movies-index row built for one detail file (estimator mode "off",
as in the default run: `audi_acc` stays None; the `or ""` defaults give
`""` for absent fields). -/
def rowOf (js : Json) : MovieRow :=
  { movieCd := js.getStrD "movieCd" ""
    movieNm := js.getStrD "movieNm" ""
    openDt := js.getStrD "openDt" ""
    prdtYear := js.getStrD "prdtYear" ""
    repNation := js.getStrD "repNationNm" ""
    grade := pyOrS (gradeOf js) ""
    genres := genresOf js
    audiAcc := none }

/-- One filmography entry. -/
structure Film where
  movieCd : String
  movieNm : String
  openDt : String
  part : String
deriving Repr, DecidableEq

/-- One accumulated person entry. -/
structure PersonEntry where
  peopleCd : String
  peopleNm : String
  repRoleNm : String
  films : List Film
deriving Repr, DecidableEq

/-- The `defaultdict` default: `{"peopleCd":"", "peopleNm":"", "repRoleNm":"", "films":[]}`. -/
def defaultEntry : PersonEntry := ⟨"", "", "", []⟩

/-- The people accumulator: a dict in insertion order. -/
abbrev PM := List (String × PersonEntry)

/-- `people_map[key]` followed by mutation: apply `f` to the entry at the
key, creating the default entry first when the key is fresh (appended at
the end, as dict insertion order does). -/
def pmUpdate : PM → String → (PersonEntry → PersonEntry) → PM
  | [], key, f => [(key, f defaultEntry)]
  | (k, e) :: rest, key, f =>
    if k = key then (k, f e) :: rest else (k, e) :: pmUpdate rest key f

/-- First-match lookup in the accumulator. -/
def pmFind : PM → String → Option PersonEntry
  | [], _ => none
  | (k, e) :: rest, key => if k = key then some e else pmFind rest key

/-- The films stored under a key (a fresh key holds the default `[]`). -/
def pmFilms (pm : PM) (key : String) : List Film :=
  ((pmFind pm key).getD defaultEntry).films

/-- The keys of the accumulator, in insertion order. -/
def pmKeys (pm : PM) : List String := pm.map Prod.fst

/-- `nm = a.get("peopleNm") or ""`. -/
def actorName (a : Json) : String := a.getStrD "peopleNm" ""

/-- `key = a.get("peopleCd") or ("NM:" + nm)`. -/
def actorKey (a : Json) : String :=
  if (a.get "peopleCd").truthy then pyStr (a.get "peopleCd") else "NM:" ++ actorName a

/-- The filmography entry appended for one actor credit:
`part = a.get("cast","") or a.get("castNm","") or ""`. -/
def filmOf (movieCd movieNm openDt : String) (a : Json) : Film :=
  { movieCd := movieCd
    movieNm := movieNm
    openDt := openDt
    part := pyOrS (a.getStrD "cast" "") (pyOrS (a.getStrD "castNm" "") "") }

/-- The mutation applied to the entry for one actor credit: set the names
only while `peopleNm` is still empty (sticky), then append to `films`
only while fewer than 6 entries are present. -/
def applyActor (movieCd movieNm openDt : String) (a : Json)
    (e : PersonEntry) : PersonEntry :=
  let e1 :=
    if e.peopleNm = "" then
      { e with peopleNm := actorName a
               peopleCd := a.getStrD "peopleCd" ""
               repRoleNm := "배우" }
    else e
  if e1.films.length < 6 then
    { e1 with films := e1.films ++ [filmOf movieCd movieNm openDt a] }
  else e1

/-- `js.get("actors") or []`. -/
def actorsOf (js : Json) : List Json := jArr (js.get "actors")

/-- The inner actor loop for one movie. -/
def processActors (movieCd movieNm openDt : String) (pm : PM)
    (acts : List Json) : PM :=
  acts.foldl
    (fun pm a =>
      if actorName a = "" then pm
      else pmUpdate pm (actorKey a) (applyActor movieCd movieNm openDt a))
    pm

/-- One iteration of the detail-file loop: an unreadable file
(`read_json` → None) or a falsy body is skipped (`if not js: continue`),
otherwise a movies row is appended and the actor loop runs. -/
def processFile (st : List MovieRow × PM) (jsOpt : Option Json) :
    List MovieRow × PM :=
  match jsOpt with
  | none => st
  | some js =>
    if !js.truthy then st
    else
      let row := rowOf js
      (st.1 ++ [row],
       processActors row.movieCd row.movieNm row.openDt st.2 (actorsOf js))

/-- One year subdirectory of `docs/data/movies`, with the parsed contents
of its `*.json` files in sorted filename order (None = unreadable). -/
structure YearDir where
  name : String
  files : List (Option Json)

/-- Python `str.isdigit` on directory basenames. -/
def pyIsdigit (s : String) : Bool := !s.isEmpty && s.data.all Char.isDigit

/-- `list_movie_detail_files`, at content level: only subdirectories whose
basename `isdigit()` are scanned, in sorted order (the input list is the
sorted directory listing). -/
def list_movie_detail_files (dirs : List YearDir) : List (Option Json) :=
  ((dirs.filter fun d => pyIsdigit d.name).map YearDir.files).flatten

/-- Stable insertion, placing `x` after every already-present element of
equal key: the effect of Python's stable `list.sort(key=...)`. -/
def stableInsert (key : α → Nat) (x : α) : List α → List α
  | [] => [x]
  | y :: ys => if key x < key y then x :: y :: ys else y :: stableInsert key x ys

/-- Stable sort by a numeric key: insert the elements left to right, each
after every already-placed element of less-or-equal key, so elements with
equal keys keep their scan order. Python's `list.sort` is the unique
stable sort by the key, so the results agree. -/
def stableSort (key : α → Nat) (l : List α) : List α :=
  l.foldl (fun acc x => stableInsert key x acc) []

/-- The movies search document. -/
structure MoviesDoc where
  generatedAt : Nat
  count : Nat
  movies : List MovieRow
deriving Repr, DecidableEq

/-- The people search document. -/
structure PeopleDoc where
  generatedAt : Nat
  count : Nat
  people : List PersonEntry
deriving Repr, DecidableEq

/-- The two published artifacts `search/movies.json`, `search/people.json`. -/
structure Artifacts where
  moviesDoc : MoviesDoc
  peopleDoc : PeopleDoc
deriving Repr, DecidableEq

/-- The scan state after the full detail-file loop. -/
def scanState (dirs : List YearDir) : List MovieRow × PM :=
  (list_movie_detail_files dirs).foldl processFile ([], [])

/-- `build_indices` (estimator mode "off"): scan, sort the rows by
`sort_key`, and assemble both documents. -/
def build_indices (dirs : List YearDir) (now : Nat) : Artifacts :=
  let st := scanState dirs
  let moviesOut := stableSort sort_key st.1
  { moviesDoc := { generatedAt := now, count := moviesOut.length, movies := moviesOut }
    peopleDoc := { generatedAt := now, count := st.2.length
                   people := st.2.map Prod.snd } }

/-- A full run with previously published artifacts in place: the two
`write_json` calls at the end of `build_indices` replace both documents
unconditionally — nothing inspects the previous artifacts or the row
count before writing. -/
def run_build (_prev : Artifacts) (dirs : List YearDir) (now : Nat) : Artifacts :=
  build_indices dirs now

/-- Number of detail files the scan turns into rows (readable and truthy). -/
def usableCount (dirs : List YearDir) : Nat :=
  ((list_movie_detail_files dirs).filter fun j =>
    match j with
    | some js => js.truthy
    | none => false).length

/-- The (dedup key, filmography entry) stream one scanned file contributes,
in actor order. -/
def fileStream (jsOpt : Option Json) : List (String × Film) :=
  match jsOpt with
  | none => []
  | some js =>
    if !js.truthy then []
    else
      let row := rowOf js
      (actorsOf js).filterMap fun a =>
        if actorName a = "" then none
        else some (actorKey a, filmOf row.movieCd row.movieNm row.openDt a)

/-- The whole credit stream of a scan, in encounter order. -/
def scanStream (dirs : List YearDir) : List (String × Film) :=
  ((list_movie_detail_files dirs).map fileStream).flatten

/-- Keep the first occurrence of every element, in order. -/
def dedupFirst : List String → List String
  | [] => []
  | k :: ks => k :: dedupFirst (ks.filter fun x => x ≠ k)
termination_by l => l.length
decreasing_by
  simp only [List.length_cons]
  exact Nat.lt_succ_of_le (List.length_filter_le _ _)

end IDX

/-! ## scripts/backfill_people.py : get_shape and the scan loop (C9) -/

namespace BFP

/-- Is the value a Python dict. -/
def isObj : Json → Bool
  | .obj _ => true
  | _ => false

/-- `x.get(k)` where `x` already passed through `x or {}` in the source:
falsy values were replaced by `{}` (safe), while a truthy non-dict raises
`AttributeError` (modelled as `Except.error`). -/
def pyDictGet (j : Json) (k : String) : Except Unit Json :=
  match j with
  | .obj fs => .ok (jlookup fs k)
  | _ => .error ()

/-- `get_shape(raw)`: flat when the dict itself carries a truthy
`movieCd`; otherwise unwrap
`((raw or {}).get("movieInfoResult") or {}).get("movieInfo") or {}` and
test its `movieCd`; with no id at either level, the ("none", {}) signal. -/
def get_shape (raw : Json) : Except Unit (String × Json) :=
  if isObj raw && (raw.get "movieCd").truthy then .ok ("flat", raw)
  else
    match pyDictGet (pyOr raw jEmptyObj) "movieInfoResult" with
    | .error e => .error e
    | .ok a =>
      match pyDictGet (pyOr a jEmptyObj) "movieInfo" with
      | .error e => .error e
      | .ok b =>
        let mi := pyOr b jEmptyObj
        match pyDictGet mi "movieCd" with
        | .error e => .error e
        | .ok cd =>
          if cd.truthy then .ok ("raw", mi) else .ok ("none", jEmptyObj)

/-- The `backfill` file loop, up to the shape and id gates (the budget and
network part beyond line 97 is outside the claim): each file is loaded
(`None` for unreadable), passed to `get_shape(raw or {})`, and either
skip-counted or counted as a candidate; an exception from `get_shape` is
uncaught and aborts the scan. -/
def backfillScan : List (Option Json) → Nat → Nat → Except Unit (Nat × Nat)
  | [], skipped, cands => .ok (skipped, cands)
  | f :: rest, skipped, cands =>
    match get_shape (pyOr (f.getD .null) jEmptyObj) with
    | .error e => .error e
    | .ok sh =>
      if sh.1 = "none" then backfillScan rest (skipped + 1) cands
      else
        let cd := pyStrip (sh.2.getStrD "movieCd" "")
        if cd = "" then backfillScan rest (skipped + 1) cands
        else backfillScan rest skipped (cands + 1)

end BFP

/-! ## scripts/update_data.py : year bucketing (C8 context) -/

namespace UD

/-- `get_year`: strip the dashes (`.replace("-","")` deletes every dash),
then the first four characters when they are digits, else the caller's
fallback (`main` passes "unknown"). -/
def get_year (openDt fallback : String) : String :=
  let s := String.mk ((pyOrS openDt "").data.filter fun c => c ≠ '-')
  if s.length ≥ 4 && IDX.pyIsdigit (s.take 4) then s.take 4 else fallback

end UD

/-! ## Lemmas: `_get` quota immediacy and the graceful stop (C1) -/

namespace BMD

theorem attemptOutcome_quota (extra : List (String × Json)) :
    attemptOutcome (quotaResp extra)
      = .inl (.quota (.obj (("errorCode", .s "320011") :: extra))) := rfl

theorem getFrom_transient :
    ∀ (pre rs : List Resp) (n : Nat),
      (∀ r ∈ pre, transient r = true) → pre.length < n →
      getFrom (pre ++ rs) n
        = ((getFrom rs (n - pre.length)).1, (getFrom rs (n - pre.length)).2 + pre.length)
  | [], rs, n, _, _ => rfl
  | r :: pre, rs, 0, _, hn => absurd hn (by simp)
  | r :: pre, rs, n + 1, ht, hn => by
    have htr : transient r = true := ht r (by simp)
    cases hao : attemptOutcome r with
    | inl res => simp [transient, hao] at htr
    | inr u =>
      have ih := getFrom_transient pre rs n
        (fun x hx => ht x (List.mem_cons_of_mem _ hx))
        (Nat.lt_of_succ_lt_succ hn)
      simp only [List.cons_append, getFrom, hao, List.append_eq, ih,
        List.length_cons, Nat.succ_sub_succ, Nat.add_assoc]

theorem getFrom_quota_head (rest : List Resp) (extra : List (String × Json)) (k : Nat) :
    getFrom (quotaResp extra :: rest) (k + 1)
      = (.quota (.obj (("errorCode", .s "320011") :: extra)), 1) := by
  simp [getFrom, attemptOutcome_quota]

theorem pyGet_quota (pre rest : List Resp) (extra : List (String × Json))
    (ht : ∀ r ∈ pre, transient r = true) (hn : pre.length < 3) :
    pyGet (pre ++ quotaResp extra :: rest)
      = (.quota (.obj (("errorCode", .s "320011") :: extra)), pre.length + 1) := by
  unfold pyGet
  rw [getFrom_transient pre (quotaResp extra :: rest) 3 ht hn]
  obtain ⟨k, hk⟩ : ∃ k, 3 - pre.length = k + 1 := ⟨2 - pre.length, by omega⟩
  rw [hk, getFrom_quota_head]
  simp [Nat.add_comm]

theorem Cache.find_set (c : Cache) (k kq : String × String) (p : Payload) :
    (Cache.set c k p).find kq = if kq = k then some p else Cache.find c kq := by
  induction c with
  | nil =>
    by_cases h : kq = k
    · subst h; simp [Cache.set, Cache.find]
    · simp [Cache.set, Cache.find, h, Ne.symm h]
  | cons hd tl ih =>
    obtain ⟨kh, ph⟩ := hd
    by_cases hk : kh = k
    · subst hk
      by_cases h : kq = kh
      · subst h; simp [Cache.set, Cache.find]
      · simp [Cache.set, Cache.find, h, Ne.symm h]
    · by_cases h : kh = kq
      · subst h
        simp [Cache.set, Cache.find, hk, Ne.symm hk]
      · by_cases h2 : kq = k
        · subst h2; simp [Cache.set, Cache.find, hk, h, ih]
        · simp [Cache.set, Cache.find, hk, h, h2, ih]

theorem countOk_cons_ok (cd : String) (info : Json) (acc : Option Int)
    (l : List (String × FetchOutcome)) :
    countOk ((cd, .ok info acc) :: l) = countOk l + 1 := by
  simp [countOk, List.filter]

theorem countOk_cons_exc (cd : String) (l : List (String × FetchOutcome)) :
    countOk ((cd, .exc) :: l) = countOk l := by
  simp [countOk, List.filter]

theorem buildLoop_quota :
    ∀ (pre : List (String × FetchOutcome)) (year : Nat) (cd : String)
      (rest : List (String × FetchOutcome)) (cache : Cache) (saved rem : Nat),
      pre.length < rem →
      (∀ c ∈ pre, c.2 ≠ FetchOutcome.quota) →
      (∀ c ∈ pre, Cache.find cache (toString year, c.1) = none) →
      (pre.map Prod.fst).Nodup →
      cd ∉ pre.map Prod.fst →
      Cache.find cache (toString year, cd) = none →
      ∃ cacheF, buildLoop year (pre ++ (cd, .quota) :: rest) rem cache saved
        = (cacheF, saved + countOk pre, true)
  | pre, year, cd, rest, cache, saved, 0, hrem, _, _, _, _, _ =>
      absurd hrem (by simp)
  | [], year, cd, rest, cache, saved, rem + 1, _, _, _, _, _, hcdf => by
    refine ⟨cache, ?_⟩
    simp [buildLoop, existedCheck, hcdf, countOk]
  | (c0, out0) :: pre, year, cd, rest, cache, saved, rem + 1,
      hrem, hnq, hfind, hnd, hcd, hcdf => by
    have hfind0 : Cache.find cache (toString year, c0) = none :=
      hfind (c0, out0) (by simp)
    have hex : existedCheck cache year c0 = false := by
      simp [existedCheck, hfind0]
    have hrem' : pre.length < rem := by
      simpa using Nat.lt_of_succ_lt_succ hrem
    have hnq' : ∀ c ∈ pre, c.2 ≠ FetchOutcome.quota :=
      fun c hc => hnq c (List.mem_cons_of_mem _ hc)
    have hnd' : (pre.map Prod.fst).Nodup := (List.nodup_cons.mp hnd).2
    have hc0pre : c0 ∉ pre.map Prod.fst := (List.nodup_cons.mp hnd).1
    have hcd' : cd ∉ pre.map Prod.fst := by
      intro h; exact hcd (List.mem_cons_of_mem _ h)
    have hcdc0 : cd ≠ c0 := by
      intro h; exact hcd (by simp [h])
    cases out0 with
    | quota => exact absurd rfl (hnq (c0, .quota) (by simp))
    | exc =>
      obtain ⟨cacheF, hF⟩ := buildLoop_quota pre year cd rest cache saved rem
        hrem' hnq'
        (fun c hc => hfind c (List.mem_cons_of_mem _ hc))
        hnd' hcd' hcdf
      refine ⟨cacheF, ?_⟩
      simp [buildLoop, hex, hF, countOk_cons_exc]
    | ok info acc =>
      have hfind' : ∀ c ∈ pre,
          Cache.find (upsertFetched cache year c0 info acc) (toString year, c.1) = none := by
        intro c hc
        rw [upsertFetched, Cache.find_set]
        have : c.1 ≠ c0 := by
          intro h
          exact hc0pre (h ▸ List.mem_map_of_mem Prod.fst hc)
        simp [this, hfind c (List.mem_cons_of_mem _ hc)]
      have hcdf' :
          Cache.find (upsertFetched cache year c0 info acc) (toString year, cd) = none := by
        rw [upsertFetched, Cache.find_set]
        simp [hcdc0, hcdf]
      obtain ⟨cacheF, hF⟩ := buildLoop_quota pre year cd rest
        (upsertFetched cache year c0 info acc) (saved + 1) rem
        hrem' hnq' hfind' hnd' hcd' hcdf'
      refine ⟨cacheF, ?_⟩
      have harith : saved + 1 + countOk pre = saved + (countOk pre + 1) := by omega
      calc buildLoop year
            (((c0, FetchOutcome.ok info acc) :: pre) ++ (cd, FetchOutcome.quota) :: rest)
            (rem + 1) cache saved
          = buildLoop year (pre ++ (cd, FetchOutcome.quota) :: rest) rem
              (upsertFetched cache year c0 info acc) (saved + 1) := by
            simp [buildLoop, hex]
        _ = (cacheF, saved + 1 + countOk pre, true) := hF
        _ = (cacheF, saved + countOk ((c0, FetchOutcome.ok info acc) :: pre), true) := by
            rw [countOk_cons_ok, harith]

theorem build_for_year_quota (pre : List (String × FetchOutcome)) (year : Nat)
    (cd : String) (rest : List (String × FetchOutcome)) (cache : Cache)
    (maxCount : Nat)
    (hrem : pre.length < maxCount)
    (hnq : ∀ c ∈ pre, c.2 ≠ FetchOutcome.quota)
    (hfind : ∀ c ∈ pre, Cache.find cache (toString year, c.1) = none)
    (hnd : (pre.map Prod.fst).Nodup)
    (hcd : cd ∉ pre.map Prod.fst)
    (hcdf : Cache.find cache (toString year, cd) = none) :
    ∃ cacheF, build_for_year year (pre ++ (cd, .quota) :: rest) maxCount cache
      = (cacheF, (pre ++ (cd, .quota) :: rest).length, countOk pre, true) := by
  obtain ⟨cacheF, hF⟩ :=
    buildLoop_quota pre year cd rest cache 0 maxCount hrem hnq hfind hnd hcd hcdf
  refine ⟨cacheF, ?_⟩
  have hne : (pre ++ (cd, FetchOutcome.quota) :: rest).length ≠ 0 := by simp
  simp [build_for_year, hne, hF]

theorem mainLoop_stop (year : Nat) (cands : List (String × FetchOutcome))
    (plans : List (Nat × List (String × FetchOutcome))) (maxCount : Nat)
    (cache : Cache) (acc : Nat)
    (h : (build_for_year year cands maxCount cache).2.2.2 = true) :
    mainLoop ((year, cands) :: plans) maxCount cache acc
      = ((build_for_year year cands maxCount cache).1,
         acc + (build_for_year year cands maxCount cache).2.2.1, true) := by
  simp [mainLoop, h]

theorem pyMain_exit_zero (plans : List (Nat × List (String × FetchOutcome)))
    (maxCount : Nat) (cache : Cache) :
    (pyMain plans maxCount cache).2.2.2 = 0 := rfl

end BMD

/-- C1: when an upstream response carries the documented daily-quota fault
payload (errorCode 320011), `_get` surfaces `QuotaError` on that very
attempt — the attempts consumed are exactly the transient ones before it
plus that one, so no further retry happens for the call; `build_for_year`
stops within the current iteration and returns the totals (candidate count
and saved count, from which remaining work is reported) with the stop
flag; `main` breaks the year loop without touching later years, and the
process exits with status 0, a success-like exit status. -/
theorem C1_quota_graceful_stop
    (pre rest : List BMD.Resp) (extra : List (String × Json))
    (year : Nat) (cd : String)
    (cpre crest : List (String × BMD.FetchOutcome))
    (cache : BMD.Cache) (maxCount : Nat)
    (plans morePlans : List (Nat × List (String × BMD.FetchOutcome))) (acc : Nat)
    (ht : ∀ r ∈ pre, BMD.transient r = true) (hn : pre.length < 3)
    (hrem : cpre.length < maxCount)
    (hnq : ∀ c ∈ cpre, c.2 ≠ BMD.FetchOutcome.quota)
    (hfind : ∀ c ∈ cpre, BMD.Cache.find cache (toString year, c.1) = none)
    (hnd : (cpre.map Prod.fst).Nodup)
    (hcd : cd ∉ cpre.map Prod.fst)
    (hcdf : BMD.Cache.find cache (toString year, cd) = none) :
    BMD.pyGet (pre ++ BMD.quotaResp extra :: rest)
        = (.quota (.obj (("errorCode", .s "320011") :: extra)), pre.length + 1)
    ∧ (∃ cacheF,
        BMD.build_for_year year (cpre ++ (cd, .quota) :: crest) maxCount cache
            = (cacheF, (cpre ++ (cd, .quota) :: crest).length, BMD.countOk cpre, true)
        ∧ BMD.mainLoop ((year, cpre ++ (cd, .quota) :: crest) :: morePlans)
            maxCount cache acc = (cacheF, acc + BMD.countOk cpre, true))
    ∧ (BMD.pyMain plans maxCount cache).2.2.2 = 0 := by
  obtain ⟨cacheF, hF⟩ := BMD.build_for_year_quota cpre year cd crest cache maxCount
    hrem hnq hfind hnd hcd hcdf
  refine ⟨BMD.pyGet_quota pre rest extra ht hn, ⟨cacheF, hF, ?_⟩, rfl⟩
  have hstep := BMD.mainLoop_stop year (cpre ++ (cd, .quota) :: crest) morePlans
    maxCount cache acc (by rw [hF])
  rw [hF] at hstep
  simpa using hstep

/-- Witness for C1 at concrete inputs: one transient 500 before the quota
payload, one successfully saved candidate before the quota candidate. -/
theorem C1_quota_graceful_stop_witness :
    BMD.pyGet [.httpErr 500, BMD.quotaResp []]
        = (.quota (.obj [("errorCode", .s "320011")]), 2)
    ∧ (∃ cacheF,
        BMD.build_for_year 2020 [("M1", .ok jEmptyObj none), ("M2", .quota)] 5 []
            = (cacheF, 2, 1, true)
        ∧ BMD.mainLoop [(2020, [("M1", .ok jEmptyObj none), ("M2", .quota)])] 5 [] 0
            = (cacheF, 1, true))
    ∧ (BMD.pyMain [] 5 []).2.2.2 = 0 := by
  have h := C1_quota_graceful_stop [.httpErr 500] [] [] 2020 "M2"
    [("M1", .ok jEmptyObj none)] [] [] 5 [] [] 0
    (by intro r hr; rw [List.mem_singleton] at hr; subst hr; rfl)
    (by decide) (by decide)
    (by intro c hc; rw [List.mem_singleton] at hc; subst hc
        exact fun h => BMD.FetchOutcome.noConfusion h)
    (by intro c hc; rfl)
    (by simp) (by simp) rfl
  simpa using h

/-! ## Lemmas: cache upsert semantics (C2) -/

namespace BMD

theorem countId_zero_of_none (tl : Cache) (key : String × String)
    (hall : ∀ e ∈ tl, e.1.2 = key.2 → e.1 = key)
    (hnm : key ∉ tl.map Prod.fst) :
    Cache.countId tl key.2 = 0 := by
  unfold Cache.countId
  rw [List.length_eq_zero, List.filter_eq_nil_iff]
  intro e he
  simp only [decide_eq_true_eq]
  intro hcd
  exact hnm ((hall e he hcd) ▸ List.mem_map_of_mem Prod.fst he)

theorem countId_set (cache : Cache) (key : String × String) (p : Payload)
    (hnd : (cache.map Prod.fst).Nodup)
    (hall : ∀ e ∈ cache, e.1.2 = key.2 → e.1 = key) :
    Cache.countId (Cache.set cache key p) key.2 = 1 := by
  induction cache with
  | nil => simp [Cache.set, Cache.countId, List.filter]
  | cons hd tl ih =>
    obtain ⟨kh, q⟩ := hd
    by_cases hk : kh = key
    · subst hk
      have h0 : Cache.countId tl kh.2 = 0 :=
        countId_zero_of_none tl kh
          (fun e he h => hall e (List.mem_cons_of_mem _ he) h)
          (List.nodup_cons.mp hnd).1
      unfold Cache.countId at h0
      simp [Cache.set, Cache.countId, List.filter_cons, h0]
    · have hkh : ¬ kh.2 = key.2 := by
        intro h
        exact hk (hall (kh, q) (by simp) h)
      have ihr := ih (List.nodup_cons.mp hnd).2
        (fun e he h => hall e (List.mem_cons_of_mem _ he) h)
      unfold Cache.countId at ihr ⊢
      simp [Cache.set, hk, List.filter_cons, hkh, ihr]

end BMD

/-- C2 counterexample: the cache holds "M1" with `audiAcc` 100 under the
2020 bucket; re-upserting "M1" with `movieNm` "NEW" and a freshly computed
`audiAcc` of 50 is skipped outright — the stored record keeps `movieNm`
"OLD", whereas the claim requires every field except `cumulativeAudience`
to equal the newly supplied record (so `movieNm` "NEW"). There is no
field-level max merge in the code. -/
theorem C2_counterexample :
    BMD.buildLoop 2020
        [("M1", BMD.FetchOutcome.ok
          (.obj [("movieNm", .s "NEW"), ("openDt", .s "20200102")]) (some 50))] 1
        [(("2020", "M1"), ⟨"M1", "OLD", "20200101", "2020", jEmptyObj, some 100⟩)] 0
      = ([(("2020", "M1"), ⟨"M1", "OLD", "20200101", "2020", jEmptyObj, some 100⟩)],
         0, false)
    ∧ (BMD.mkPayload "M1"
        (.obj [("movieNm", .s "NEW"), ("openDt", .s "20200102")]) (some 50)).movieNm
        = "NEW"
    ∧ ("OLD" : String) ≠ "NEW" :=
  ⟨rfl, rfl, by decide⟩

/-- C2 as amended: when the cached record under `movies/<year>/<id>.json`
already stores an integer `audiAcc`, the re-upsert is skipped entirely and
the cache is unchanged; otherwise the supplied record is saved in full —
`audiAcc` included, with no max merge — under the bucket derived from the
new release date, and when every pre-existing record with that id sits at
that same path, a full scan afterwards contains exactly one record with
that id, namely the supplied one. -/
theorem C2_amended (cache : BMD.Cache) (year : Nat) (cd : String) (info : Json)
    (acc : Option Int) (hnd : (cache.map Prod.fst).Nodup) :
    (BMD.existedCheck cache year cd = true →
        BMD.buildLoop year [(cd, .ok info acc)] 1 cache 0 = (cache, 0, false))
    ∧ (BMD.existedCheck cache year cd = false →
        BMD.buildLoop year [(cd, .ok info acc)] 1 cache 0
          = (BMD.upsertFetched cache year cd info acc, 1, false))
    ∧ ((BMD.upsertFetched cache year cd info acc).find
          (BMD.saveBucket year info, cd) = some (BMD.mkPayload cd info acc))
    ∧ ((∀ e ∈ cache, e.1.2 = cd → e.1 = (BMD.saveBucket year info, cd)) →
        (BMD.upsertFetched cache year cd info acc).countId cd = 1) := by
  refine ⟨fun h => by simp [BMD.buildLoop, h],
          fun h => by simp [BMD.buildLoop, h],
          ?_, ?_⟩
  · rw [BMD.upsertFetched, BMD.Cache.find_set]
    simp
  · intro hall
    exact BMD.countId_set cache (BMD.saveBucket year info, cd)
      (BMD.mkPayload cd info acc) hnd hall

/-- Witness for C2 at concrete inputs: the skip branch on a cache already
holding an integer `audiAcc`, and the full-overwrite branch on an empty
cache. -/
theorem C2_amended_witness :
    (BMD.buildLoop 2020
        [("M1", BMD.FetchOutcome.ok
          (.obj [("movieNm", .s "NEW"), ("openDt", .s "20200102")]) (some 50))] 1
        [(("2020", "M1"), ⟨"M1", "OLD", "20200101", "2020", jEmptyObj, some 100⟩)] 0
      = ([(("2020", "M1"), ⟨"M1", "OLD", "20200101", "2020", jEmptyObj, some 100⟩)],
         0, false))
    ∧ (BMD.buildLoop 2020
        [("M1", BMD.FetchOutcome.ok
          (.obj [("movieNm", .s "NEW"), ("openDt", .s "20200102")]) (some 50))] 1
        [] 0
      = (BMD.upsertFetched [] 2020 "M1"
          (.obj [("movieNm", .s "NEW"), ("openDt", .s "20200102")]) (some 50),
         1, false))
    ∧ ((BMD.upsertFetched [] 2020 "M1"
          (.obj [("movieNm", .s "NEW"), ("openDt", .s "20200102")]) (some 50)).find
          ("2020", "M1")
        = some (BMD.mkPayload "M1"
            (.obj [("movieNm", .s "NEW"), ("openDt", .s "20200102")]) (some 50)))
    ∧ (BMD.upsertFetched [] 2020 "M1"
        (.obj [("movieNm", .s "NEW"), ("openDt", .s "20200102")]) (some 50)).countId
          "M1" = 1 := by
  obtain ⟨hskip, _, _, _⟩ := C2_amended
    [(("2020", "M1"), ⟨"M1", "OLD", "20200101", "2020", jEmptyObj, some 100⟩)]
    2020 "M1" (.obj [("movieNm", .s "NEW"), ("openDt", .s "20200102")]) (some 50)
    (by simp)
  obtain ⟨_, hwrite, hfind, hcount⟩ := C2_amended [] 2020 "M1"
    (.obj [("movieNm", .s "NEW"), ("openDt", .s "20200102")]) (some 50) (by simp)
  exact ⟨hskip rfl, hwrite rfl, hfind, hcount (by simp)⟩

/-! ## Lemmas: write atomicity (C3) -/

namespace FSW

/-- Concatenation of the serialized chunks: the full document text. -/
def concatChunks : List String → String
  | [] => ""
  | c :: cs => c ++ concatChunks cs

theorem runSteps_append (fs : FS) (l1 l2 : List Step) :
    runSteps fs (l1 ++ l2) = runSteps (runSteps fs l1) l2 := by
  induction l1 generalizing fs with
  | nil => rfl
  | cons st rest ih => simp only [List.cons_append, runSteps, List.append_eq, ih]

theorem applyStep_untouched (fs : FS) (st : Step) (p : String)
    (h : touches st p = false) : applyStep fs st p = fs p := by
  cases st with
  | truncate q =>
    simp only [touches, decide_eq_false_iff_not] at h
    simp [applyStep, Ne.symm h]
  | append q c =>
    simp only [touches, decide_eq_false_iff_not] at h
    simp [applyStep, Ne.symm h]
  | rename src dst =>
    simp only [touches, Bool.or_eq_false_iff, decide_eq_false_iff_not] at h
    simp [applyStep, Ne.symm h.1, Ne.symm h.2]

theorem runSteps_untouched (l : List Step) (fs : FS) (p : String)
    (h : ∀ st ∈ l, touches st p = false) : runSteps fs l p = fs p := by
  induction l generalizing fs with
  | nil => rfl
  | cons st rest ih =>
    rw [runSteps, ih (applyStep fs st) (fun s hs => h s (List.mem_cons_of_mem _ hs))]
    exact applyStep_untouched fs st p (h st (by simp))

theorem runSteps_appends (t : String) (chunks : List String) (fs : FS) (s : String)
    (hfs : fs t = some s) :
    runSteps fs (chunks.map (Step.append t)) t = some (s ++ concatChunks chunks) := by
  induction chunks generalizing fs s with
  | nil => simp [runSteps, hfs, concatChunks]
  | cons c cs ih =>
    simp only [List.map_cons, runSteps]
    have h1 : applyStep fs (Step.append t c) t = some (s ++ c) := by
      simp [applyStep, hfs]
    rw [ih _ _ h1, concatChunks, String.append_assoc]

theorem tmpPath_ne (p : String) : ¬ tmpPath p = p := by
  intro h
  have hlen := congrArg String.length h
  rw [tmpPath, String.length_append] at hlen
  have h4 : (".tmp" : String).length = 4 := rfl
  rw [h4] at hlen
  omega

theorem touches_tmp_only (p : String) (st : Step)
    (hst : st = Step.truncate (tmpPath p) ∨ ∃ c, st = Step.append (tmpPath p) c) :
    touches st p = false := by
  rcases hst with h | ⟨c, h⟩ <;> subst h <;>
    simp [touches, tmpPath_ne p]

end FSW

/-- C3 as amended: `save_json` of build_movie_details.py and
backfill_people.py is atomic — after any prefix of its micro-steps the
destination path holds either the previous content or the complete new
document, never a partial write (the stream goes to the `.json.tmp` path
and an atomic replace swaps it in). The third writer, `save_json` of
update_data.py, writes the per-title cache file in place and is not atomic
(see the counterexample). -/
theorem C3_amended (path : String) (chunks : List String) (fs : FSW.FS) (n : Nat) :
    FSW.runSteps fs ((FSW.atomicSaveSteps path chunks).take n) path = fs path
    ∨ FSW.runSteps fs ((FSW.atomicSaveSteps path chunks).take n) path
        = some (FSW.concatChunks chunks) := by
  cases n with
  | zero => left; rfl
  | succ m =>
    rw [FSW.atomicSaveSteps, List.take_succ_cons]
    by_cases hm : m ≤ (chunks.map (FSW.Step.append (FSW.tmpPath path))).length
    · left
      rw [List.take_append_of_le_length hm]
      apply FSW.runSteps_untouched
      intro st hst
      apply FSW.touches_tmp_only
      rcases List.mem_cons.mp hst with h | h
      · exact Or.inl h
      · obtain ⟨c, _, hc⟩ := List.mem_map.mp (List.mem_of_mem_take h)
        exact Or.inr ⟨c, hc.symm⟩
    · right
      push_neg at hm
      rw [List.take_of_length_le (by simpa using hm)]
      have hsplit : FSW.Step.truncate (FSW.tmpPath path) ::
            (chunks.map (FSW.Step.append (FSW.tmpPath path)) ++
              [FSW.Step.rename (FSW.tmpPath path) path])
          = (FSW.Step.truncate (FSW.tmpPath path) ::
              chunks.map (FSW.Step.append (FSW.tmpPath path))) ++
              [FSW.Step.rename (FSW.tmpPath path) path] := by simp
      rw [hsplit, FSW.runSteps_append]
      have htr : (FSW.applyStep fs (FSW.Step.truncate (FSW.tmpPath path)))
          (FSW.tmpPath path) = some "" := by simp [FSW.applyStep]
      have hcontent : FSW.runSteps fs
          (FSW.Step.truncate (FSW.tmpPath path) ::
            chunks.map (FSW.Step.append (FSW.tmpPath path))) (FSW.tmpPath path)
          = some (FSW.concatChunks chunks) := by
        rw [FSW.runSteps]
        rw [FSW.runSteps_appends (FSW.tmpPath path) chunks _ "" htr]
        simp
      have hne : ¬ path = FSW.tmpPath path := fun h => FSW.tmpPath_ne path h.symm
      set X := FSW.runSteps fs (FSW.Step.truncate (FSW.tmpPath path) ::
        chunks.map (FSW.Step.append (FSW.tmpPath path))) with hX
      show FSW.runSteps X [FSW.Step.rename (FSW.tmpPath path) path] path = _
      simp [FSW.runSteps, FSW.applyStep, hne, hcontent]

/-- C3 counterexample: `save_json` of update_data.py truncates the
destination `m.json` in place before streaming the new text, so after the
truncate-plus-first-chunk prefix the per-title cache file holds the
partial text "NEW1" — neither the previous content "OLD" nor the full new
document "NEW1NEW2". The claim that every writer of the per-title cache
files is atomic is therefore false. -/
theorem C3_counterexample :
    ¬ ∀ n : Nat,
      FSW.runSteps (fun q => if q = "m.json" then some "OLD" else none)
          ((FSW.directSaveSteps "m.json" ["NEW1", "NEW2"]).take n) "m.json"
        = (fun q => if q = "m.json" then some "OLD" else none : FSW.FS) "m.json"
      ∨ FSW.runSteps (fun q => if q = "m.json" then some "OLD" else none)
          ((FSW.directSaveSteps "m.json" ["NEW1", "NEW2"]).take n) "m.json"
        = some (FSW.concatChunks ["NEW1", "NEW2"]) := by
  intro h
  have h2 := h 2
  have hev : FSW.runSteps (fun q => if q = "m.json" then some "OLD" else none)
      ((FSW.directSaveSteps "m.json" ["NEW1", "NEW2"]).take 2) "m.json"
      = some "NEW1" := rfl
  rw [hev] at h2
  rcases h2 with h2 | h2
  · exact absurd h2 (by decide)
  · exact absurd h2 (by decide)

/-! ## Lemmas: fetch_week budget accounting (C5) -/

namespace IDX

theorem fetchWeekLoop_budget (oracle : List TOutcome) :
    ∀ (budget : Int) (tries : Nat),
      ∃ k : Nat, (fetchWeekLoop oracle budget tries).2.1 = budget - k
        ∧ (fetchWeekLoop oracle budget tries).2.2 = tries + k := by
  induction oracle with
  | nil =>
    intro budget tries
    exact ⟨0, by simp [fetchWeekLoop], by simp [fetchWeekLoop]⟩
  | cons o rest ih =>
    intro budget tries
    cases o with
    | status code js =>
      by_cases h200 : code = 200
      · refine ⟨1, ?_, ?_⟩ <;> simp [fetchWeekLoop, h200]
      · by_cases hret : code ≥ 500 ∨ code = 429
        · obtain ⟨k, h1, h2⟩ := ih (budget - 1) (tries + 1)
          refine ⟨k + 1, ?_, ?_⟩ <;>
            simp only [fetchWeekLoop, h200, hret, if_false, if_true, h1, h2] <;>
            omega
        · refine ⟨1, ?_, ?_⟩ <;> simp [fetchWeekLoop, h200, hret]
    | netExc =>
      by_cases h5 : tries + 1 ≥ 5
      · refine ⟨1, ?_, ?_⟩ <;> simp [fetchWeekLoop, h5]
      · obtain ⟨k, h1, h2⟩ := ih (budget - 1) (tries + 1)
        refine ⟨k + 1, ?_, ?_⟩ <;>
          simp only [fetchWeekLoop, h5, if_false, if_true, h1, h2] <;>
          omega

end IDX

/-- C5 counterexample: with budget 5, a single `fetch_week` call whose
transport sees one 500 then a 200 succeeds but leaves the budget at 3 —
the one call request consumed two budget units (one per transport
attempt), not exactly one as the claim states. -/
theorem C5_counterexample :
    IDX.fetch_week 5 [.status 500 .null, .status 200 jEmptyObj]
        = ((some jEmptyObj, none), 3, 2)
    ∧ (5 - 3 : Int) ≠ 1 :=
  ⟨rfl, by decide⟩

/-- C5 as amended: the budget is checked only on entry (a non-positive
budget rejects the call with "budget_exhausted" and no attempt); once
entered, the loop decrements the budget once per transport attempt — so a
call retried after 429/5xx or a network error consumes one unit per
retry, and the final budget is the entry budget minus the number of
attempts made. -/
theorem C5_amended (budget : Int) (oracle : List IDX.TOutcome) :
    (budget ≤ 0 →
      IDX.fetch_week budget oracle = ((none, some "budget_exhausted"), budget, 0))
    ∧ (0 < budget → ∃ k : Nat,
        (IDX.fetch_week budget oracle).2.1 = budget - k
        ∧ (IDX.fetch_week budget oracle).2.2 = k) := by
  constructor
  · intro h
    simp [IDX.fetch_week, h]
  · intro h
    obtain ⟨k, h1, h2⟩ := IDX.fetchWeekLoop_budget oracle budget 0
    refine ⟨k, ?_, ?_⟩ <;>
      simp [IDX.fetch_week, not_le.mpr h, h1, h2]

/-- Witness for C5: the entry rejection at budget -1, and the attempt
accounting on the 500-then-200 oracle at budget 5. -/
theorem C5_amended_witness :
    IDX.fetch_week (-1) [] = ((none, some "budget_exhausted"), -1, 0)
    ∧ ∃ k : Nat,
        (IDX.fetch_week 5 [.status 500 .null, .status 200 jEmptyObj]).2.1 = 5 - k
        ∧ (IDX.fetch_week 5 [.status 500 .null, .status 200 jEmptyObj]).2.2 = k := by
  obtain ⟨h1, _⟩ := C5_amended (-1) []
  obtain ⟨_, h2⟩ := C5_amended 5 [.status 500 .null, .status 200 jEmptyObj]
  exact ⟨h1 (by decide), h2 (by decide)⟩

/-! ## Lemmas: the scan rows and the unconditional index write (C4) -/

namespace IDX

/-- The movies row one scanned file yields, if any (None: unreadable or
falsy body, skipped by `if not js: continue`). -/
def rowOfFile : Option Json → Option MovieRow
  | none => none
  | some js => if js.truthy then some (rowOf js) else none

theorem scan_rows (files : List (Option Json)) :
    ∀ st : List MovieRow × PM,
      (files.foldl processFile st).1 = st.1 ++ files.filterMap rowOfFile := by
  induction files with
  | nil => intro st; simp
  | cons f rest ih =>
    intro st
    cases f with
    | none => simp [processFile, ih, rowOfFile]
    | some js =>
      by_cases ht : js.truthy
      · simp [processFile, ht, ih, rowOfFile]
      · simp [processFile, ht, ih, rowOfFile]

theorem scan_skip_all (files : List (Option Json))
    (h : ∀ f ∈ files, rowOfFile f = none) :
    ∀ st : List MovieRow × PM, files.foldl processFile st = st := by
  induction files with
  | nil => intro st; rfl
  | cons f rest ih =>
    intro st
    have hf := h f (by simp)
    have hstep : processFile st f = st := by
      cases f with
      | none => rfl
      | some js =>
        by_cases ht : js.truthy
        · simp [rowOfFile, ht] at hf
        · simp [processFile, ht]
    rw [List.foldl_cons, hstep]
    exact ih (fun g hg => h g (List.mem_cons_of_mem _ hg)) st

theorem usableCount_zero_skip (dirs : List YearDir) (h : usableCount dirs = 0) :
    ∀ f ∈ list_movie_detail_files dirs, rowOfFile f = none := by
  intro f hf
  unfold usableCount at h
  rw [List.length_eq_zero, List.filter_eq_nil_iff] at h
  have := h f hf
  cases f with
  | none => rfl
  | some js =>
    simp only [decide_eq_true_eq] at this
    simp [rowOfFile, this]

end IDX

/-- C4 counterexample: with previously published non-empty artifacts and a
scan of zero usable rows (no year directories at all), `build_indices`
still writes both artifacts — the previous indices are replaced by empty
ones, so the claimed refuse-to-overwrite guard does not exist. -/
theorem C4_counterexample :
    IDX.usableCount [] = 0
    ∧ IDX.run_build
        ⟨⟨1, 1, [⟨"M", "N", "", "", "", "", [], none⟩]⟩,
         ⟨1, 1, [⟨"P1", "A", "배우", []⟩]⟩⟩ [] 2
        = ⟨⟨2, 0, []⟩, ⟨2, 0, []⟩⟩
    ∧ (⟨⟨2, 0, []⟩, ⟨2, 0, []⟩⟩ : IDX.Artifacts)
        ≠ ⟨⟨1, 1, [⟨"M", "N", "", "", "", "", [], none⟩]⟩,
           ⟨1, 1, [⟨"P1", "A", "배우", []⟩]⟩⟩ :=
  ⟨rfl, rfl, by decide⟩

/-- C4 as amended: the index build writes both artifacts unconditionally;
when the cache scan yields zero usable rows it publishes empty indices
(count 0, empty arrays) over whatever was there before — there is no
zero-row guard. -/
theorem C4_amended (prev : IDX.Artifacts) (dirs : List IDX.YearDir) (now : Nat)
    (h : IDX.usableCount dirs = 0) :
    IDX.run_build prev dirs now = ⟨⟨now, 0, []⟩, ⟨now, 0, []⟩⟩ := by
  have hskip := IDX.scan_skip_all (IDX.list_movie_detail_files dirs)
    (IDX.usableCount_zero_skip dirs h) ([], [])
  show IDX.build_indices dirs now = _
  unfold IDX.build_indices IDX.scanState
  rw [hskip]
  rfl

/-- Witness for C4 at a concrete input: one year directory containing only
an unreadable file still produces zero usable rows, and the previous
artifacts are overwritten with empty ones. -/
theorem C4_amended_witness :
    IDX.run_build
        ⟨⟨1, 1, [⟨"M", "N", "", "", "", "", [], none⟩]⟩,
         ⟨1, 1, [⟨"P1", "A", "배우", []⟩]⟩⟩
        [⟨"2020", [none]⟩] 7
      = ⟨⟨7, 0, []⟩, ⟨7, 0, []⟩⟩ :=
  C4_amended _ _ 7 rfl

/-! ## Lemmas: the stable sort (C6, C8) -/

namespace IDX

theorem mem_stableInsert (k : α → Nat) (x : α) (l : List α) (a : α) :
    a ∈ stableInsert k x l ↔ a = x ∨ a ∈ l := by
  induction l with
  | nil => simp [stableInsert]
  | cons y ys ih =>
    by_cases h : k x < k y
    · simp only [stableInsert, if_pos h, List.mem_cons]
    · simp only [stableInsert, if_neg h, List.mem_cons, ih]
      tauto

theorem pairwise_stableInsert (k : α → Nat) (x : α) (l : List α)
    (hl : l.Pairwise (fun a b => k a ≤ k b)) :
    (stableInsert k x l).Pairwise (fun a b => k a ≤ k b) := by
  induction l with
  | nil => simp [stableInsert]
  | cons y ys ih =>
    rcases List.pairwise_cons.mp hl with ⟨hy, hys⟩
    by_cases h : k x < k y
    · rw [stableInsert, if_pos h]
      refine List.pairwise_cons.mpr ⟨?_, hl⟩
      intro b hb
      rcases List.mem_cons.mp hb with rfl | hb
      · exact Nat.le_of_lt h
      · exact Nat.le_trans (Nat.le_of_lt h) (hy b hb)
    · rw [stableInsert, if_neg h]
      refine List.pairwise_cons.mpr ⟨?_, ih hys⟩
      intro b hb
      rcases (mem_stableInsert k x ys b).mp hb with rfl | hb
      · exact Nat.le_of_not_lt h
      · exact hy b hb

theorem pairwise_stableSort_fold (k : α → Nat) (l : List α) :
    ∀ acc : List α, acc.Pairwise (fun a b => k a ≤ k b) →
      (l.foldl (fun acc x => stableInsert k x acc) acc).Pairwise
        (fun a b => k a ≤ k b) := by
  induction l with
  | nil => intro acc hacc; exact hacc
  | cons x xs ih =>
    intro acc hacc
    exact ih (stableInsert k x acc) (pairwise_stableInsert k x acc hacc)

theorem pairwise_stableSort (k : α → Nat) (l : List α) :
    (stableSort k l).Pairwise (fun a b => k a ≤ k b) :=
  pairwise_stableSort_fold k l [] (by simp)

theorem mem_stableSort_fold (k : α → Nat) (l : List α) (a : α) :
    ∀ acc : List α,
      a ∈ l.foldl (fun acc x => stableInsert k x acc) acc ↔ a ∈ acc ∨ a ∈ l := by
  induction l with
  | nil => intro acc; simp
  | cons x xs ih =>
    intro acc
    rw [List.foldl_cons, ih (stableInsert k x acc), mem_stableInsert]
    simp only [List.mem_cons]
    tauto

theorem mem_stableSort (k : α → Nat) (l : List α) (a : α) :
    a ∈ stableSort k l ↔ a ∈ l := by
  rw [stableSort, mem_stableSort_fold]
  simp

end IDX

/-- C6 counterexample: two cached titles share the release date 20200101
but are scanned with ids "B" before "A"; Python's stable sort keeps that
scan order, so the produced movies array is not sorted by
(releaseDate, id) — the claimed id tiebreaker does not exist. -/
theorem C6_counterexample :
    ((IDX.build_indices
        [⟨"2020",
          [some (.obj [("movieCd", .s "B"), ("movieNm", .s "Beta"),
                       ("openDt", .s "20200101")]),
           some (.obj [("movieCd", .s "A"), ("movieNm", .s "Alpha"),
                       ("openDt", .s "20200101")])]⟩]
        0).moviesDoc.movies).map IDX.MovieRow.movieCd = ["B", "A"]
    ∧ ¬ ((IDX.build_indices
        [⟨"2020",
          [some (.obj [("movieCd", .s "B"), ("movieNm", .s "Beta"),
                       ("openDt", .s "20200101")]),
           some (.obj [("movieCd", .s "A"), ("movieNm", .s "Alpha"),
                       ("openDt", .s "20200101")])]⟩]
        0).moviesDoc.movies).Pairwise
        (fun a b => IDX.sort_key a < IDX.sort_key b
          ∨ (IDX.sort_key a = IDX.sort_key b ∧ strLe a.movieCd b.movieCd = true)) := by
  exact ⟨by decide, by decide⟩

/-- C6 as amended: the movies array is sorted by release date alone
(`sort_key`, with `datetime.min` standing in for an absent or unparseable
date, so such records surface first); equal dates keep scan order — there
is no id tiebreaker. The claim's concrete example still holds: titles
dated 2021-05-01, 2020-01-01 and one with no date come out
[no-date, 2020-01-01, 2021-05-01]. -/
theorem C6_amended :
    (∀ (dirs : List IDX.YearDir) (now : Nat),
      ((IDX.build_indices dirs now).moviesDoc.movies).Pairwise
        (fun a b => IDX.sort_key a ≤ IDX.sort_key b))
    ∧ ((IDX.build_indices
        [⟨"2021",
          [some (.obj [("movieCd", .s "ND"), ("movieNm", .s "NoDate"),
                       ("openDt", .s "")]),
           some (.obj [("movieCd", .s "D2021"), ("movieNm", .s "Later"),
                       ("openDt", .s "20210501")]),
           some (.obj [("movieCd", .s "D2020"), ("movieNm", .s "Earlier"),
                       ("openDt", .s "20200101")])]⟩]
        0).moviesDoc.movies).map IDX.MovieRow.movieCd
      = ["ND", "D2020", "D2021"] := by
  refine ⟨fun dirs now => ?_, by decide⟩
  exact IDX.pairwise_stableSort IDX.sort_key (IDX.scanState dirs).1

/-- C8 counterexample: a record cached under the literal "unknown" bucket
(exactly where update_data.py's `get_year` fallback puts a record with an
unparseable date) is absent from the produced MovieIndex, because
`list_movie_detail_files` scans only directories whose basename
`isdigit()`. -/
theorem C8_counterexample :
    ((IDX.build_indices
        [⟨"2020",
          [some (.obj [("movieCd", .s "A"), ("movieNm", .s "Alpha"),
                       ("openDt", .s "20200101")])]⟩,
         ⟨"unknown",
          [some (.obj [("movieCd", .s "U"), ("movieNm", .s "Unbucketed"),
                       ("openDt", .s "")])]⟩]
        0).moviesDoc.movies).map IDX.MovieRow.movieCd = ["A"]
    ∧ IDX.pyIsdigit "unknown" = false
    ∧ UD.get_year "" "unknown" = "unknown" :=
  ⟨by decide, by decide, by decide⟩

/-- C8 as amended: the scan covers exactly the numeric year buckets —
dropping every non-digit-named bucket (including "unknown") changes
nothing, and every readable, truthy record inside a digit-named bucket
does appear in the produced movies array. -/
theorem C8_amended (dirs : List IDX.YearDir) (now : Nat) :
    IDX.build_indices dirs now
        = IDX.build_indices (dirs.filter fun d => IDX.pyIsdigit d.name) now
    ∧ (∀ d ∈ dirs, IDX.pyIsdigit d.name = true →
        ∀ js : Json, some js ∈ d.files → js.truthy = true →
          IDX.rowOf js ∈ (IDX.build_indices dirs now).moviesDoc.movies) := by
  have hfiles :
      IDX.list_movie_detail_files (dirs.filter fun d => IDX.pyIsdigit d.name)
        = IDX.list_movie_detail_files dirs := by
    unfold IDX.list_movie_detail_files
    rw [List.filter_filter]
    simp
  constructor
  · unfold IDX.build_indices IDX.scanState
    rw [hfiles]
  · intro d hd hdig js hjs ht
    have hmem : (some js) ∈ IDX.list_movie_detail_files dirs := by
      unfold IDX.list_movie_detail_files
      rw [List.mem_flatten]
      exact ⟨d.files, List.mem_map.mpr
        ⟨d, List.mem_filter.mpr ⟨hd, hdig⟩, rfl⟩, hjs⟩
    have hrow : IDX.rowOf js ∈ (IDX.scanState dirs).1 := by
      rw [IDX.scanState, IDX.scan_rows]
      simp only [List.nil_append]
      exact List.mem_filterMap.mpr ⟨some js, hmem, by simp [IDX.rowOfFile, ht]⟩
    show IDX.rowOf js ∈ IDX.stableSort IDX.sort_key (IDX.scanState dirs).1
    exact (IDX.mem_stableSort _ _ _).mpr hrow

/-- Witness for C8 at the two-bucket input: the record in the digit-named
2020 bucket does appear in the produced movies array. -/
theorem C8_amended_witness :
    IDX.rowOf (.obj [("movieCd", .s "A"), ("movieNm", .s "Alpha"),
                     ("openDt", .s "20200101")])
      ∈ (IDX.build_indices
          [⟨"2020",
            [some (.obj [("movieCd", .s "A"), ("movieNm", .s "Alpha"),
                         ("openDt", .s "20200101")])]⟩,
           ⟨"unknown",
            [some (.obj [("movieCd", .s "U"), ("movieNm", .s "Unbucketed"),
                         ("openDt", .s "")])]⟩]
          0).moviesDoc.movies := by
  have h := C8_amended
    [⟨"2020",
      [some (.obj [("movieCd", .s "A"), ("movieNm", .s "Alpha"),
                   ("openDt", .s "20200101")])]⟩,
     ⟨"unknown",
      [some (.obj [("movieCd", .s "U"), ("movieNm", .s "Unbucketed"),
                   ("openDt", .s "")])]⟩]
    0
  exact h.2 _ (List.mem_cons_self _ _) rfl _ (List.mem_cons_self _ _) rfl

/-! ## Lemmas: the people accumulator — filmography effects (C7, C10) -/

namespace IDX

/-- One capped append: the films list grows only while shorter than 6. -/
def capAppend (l : List Film) (f : Film) : List Film :=
  if l.length < 6 then l ++ [f] else l

/-- Capped appends folded over a stream of filmography entries. -/
def capAppendAll (l : List Film) (fs : List Film) : List Film :=
  fs.foldl capAppend l

theorem applyActor_films (mc mn od : String) (a : Json) (e : PersonEntry) :
    (applyActor mc mn od a e).films = capAppend e.films (filmOf mc mn od a) := by
  unfold applyActor capAppend
  by_cases hnm : e.peopleNm = "" <;> by_cases hlen : e.films.length < 6 <;>
    simp [hnm, hlen]

theorem pmFind_update (pm : PM) (key k2 : String) (f : PersonEntry → PersonEntry) :
    pmFind (pmUpdate pm key f) k2
      = if k2 = key then some (f ((pmFind pm key).getD defaultEntry))
        else pmFind pm k2 := by
  induction pm with
  | nil =>
    by_cases h : k2 = key
    · subst h; simp [pmUpdate, pmFind]
    · simp [pmUpdate, pmFind, h, Ne.symm h]
  | cons hd tl ih =>
    obtain ⟨kh, e⟩ := hd
    by_cases hk : kh = key
    · subst hk
      by_cases h : k2 = kh
      · subst h; simp [pmUpdate, pmFind]
      · simp [pmUpdate, pmFind, h, Ne.symm h]
    · by_cases h : kh = k2
      · subst h
        simp [pmUpdate, pmFind, hk, Ne.symm hk]
      · by_cases h2 : k2 = key
        · subst h2; simp [pmUpdate, pmFind, hk, h, ih]
        · simp [pmUpdate, pmFind, hk, h, h2, ih]

theorem pmFilms_update_self (pm : PM) (key : String)
    (f : PersonEntry → PersonEntry) :
    pmFilms (pmUpdate pm key f) key
      = (f ((pmFind pm key).getD defaultEntry)).films := by
  unfold pmFilms
  rw [pmFind_update]
  simp

theorem pmFilms_update_other (pm : PM) (key k2 : String)
    (f : PersonEntry → PersonEntry) (h : ¬ k2 = key) :
    pmFilms (pmUpdate pm key f) k2 = pmFilms pm k2 := by
  unfold pmFilms
  rw [pmFind_update, if_neg h]

/-- The (key, film) credit one actor object contributes, if any. -/
def creditOf (mc mn od : String) (a : Json) : Option (String × Film) :=
  if actorName a = "" then none else some (actorKey a, filmOf mc mn od a)

theorem pmFilms_processActors (mc mn od : String) (acts : List Json) :
    ∀ (pm : PM) (key : String),
      pmFilms (processActors mc mn od pm acts) key
        = capAppendAll (pmFilms pm key)
            (((acts.filterMap (creditOf mc mn od)).filter
                (fun p => p.1 = key)).map Prod.snd) := by
  induction acts with
  | nil => intro pm key; rfl
  | cons a as ih =>
    intro pm key
    by_cases hnm : actorName a = ""
    · have hstep : processActors mc mn od pm (a :: as)
          = processActors mc mn od pm as := by
        simp [processActors, hnm]
      rw [hstep, ih]
      simp [creditOf, hnm]
    · have hstep : processActors mc mn od pm (a :: as)
          = processActors mc mn od
              (pmUpdate pm (actorKey a) (applyActor mc mn od a)) as := by
        simp [processActors, hnm]
      rw [hstep, ih]
      by_cases hkey : actorKey a = key
      · subst hkey
        rw [pmFilms_update_self]
        rw [applyActor_films]
        have hstream :
            (((a :: as).filterMap (creditOf mc mn od)).filter
                (fun p => p.1 = actorKey a)).map Prod.snd
              = filmOf mc mn od a ::
                ((as.filterMap (creditOf mc mn od)).filter
                  (fun p => p.1 = actorKey a)).map Prod.snd := by
          simp [creditOf, hnm]
        rw [hstream]
        rfl
      · rw [pmFilms_update_other pm (actorKey a) key _ (fun h => hkey h.symm)]
        have hstream :
            (((a :: as).filterMap (creditOf mc mn od)).filter
                (fun p => p.1 = key)).map Prod.snd
              = ((as.filterMap (creditOf mc mn od)).filter
                  (fun p => p.1 = key)).map Prod.snd := by
          simp [creditOf, hnm, hkey]
        rw [hstream]

theorem fileStream_eq (jsOpt : Option Json) :
    fileStream jsOpt = match jsOpt with
      | none => []
      | some js =>
        if !js.truthy then []
        else (actorsOf js).filterMap
          (creditOf (rowOf js).movieCd (rowOf js).movieNm (rowOf js).openDt) := by
  cases jsOpt with
  | none => rfl
  | some js => rfl

theorem pmFilms_processFile (st : List MovieRow × PM) (jsOpt : Option Json)
    (key : String) :
    pmFilms (processFile st jsOpt).2 key
      = capAppendAll (pmFilms st.2 key)
          (((fileStream jsOpt).filter (fun p => p.1 = key)).map Prod.snd) := by
  cases jsOpt with
  | none => rfl
  | some js =>
    by_cases ht : js.truthy
    · have h1 : processFile st (some js)
          = (st.1 ++ [rowOf js],
             processActors (rowOf js).movieCd (rowOf js).movieNm
               (rowOf js).openDt st.2 (actorsOf js)) := by
        simp [processFile, ht]
      rw [h1, fileStream_eq]
      simp only [ht, Bool.not_true, if_false]
      exact pmFilms_processActors _ _ _ (actorsOf js) st.2 key
    · have h1 : processFile st (some js) = st := by simp [processFile, ht]
      rw [h1, fileStream_eq]
      simp [ht, capAppendAll]

theorem capAppendAll_append (l : List Film) (fs1 fs2 : List Film) :
    capAppendAll l (fs1 ++ fs2) = capAppendAll (capAppendAll l fs1) fs2 := by
  unfold capAppendAll
  rw [List.foldl_append]

theorem pmFilms_scan (files : List (Option Json)) :
    ∀ (st : List MovieRow × PM) (key : String),
      pmFilms ((files.foldl processFile st).2) key
        = capAppendAll (pmFilms st.2 key)
            ((((files.map fileStream).flatten).filter
                (fun p => p.1 = key)).map Prod.snd) := by
  induction files with
  | nil => intro st key; rfl
  | cons f fs ih =>
    intro st key
    rw [List.foldl_cons, ih (processFile st f) key, pmFilms_processFile]
    rw [List.map_cons, List.flatten_cons, List.filter_append, List.map_append,
      capAppendAll_append]

theorem capAppendAll_take (fs : List Film) :
    ∀ l : List Film, l.length ≤ 6 → capAppendAll l fs = (l ++ fs).take 6 := by
  induction fs with
  | nil =>
    intro l hl
    simp [capAppendAll, List.take_of_length_le hl]
  | cons f fs ih =>
    intro l hl
    by_cases h : l.length < 6
    · have hstep : capAppendAll l (f :: fs) = capAppendAll (l ++ [f]) fs := by
        simp [capAppendAll, capAppend, h]
      rw [hstep, ih (l ++ [f]) (by simp; omega)]
      simp [List.append_assoc]
    · have h6 : 6 ≤ l.length := by omega
      have hstep : capAppendAll l (f :: fs) = capAppendAll l fs := by
        simp [capAppendAll, capAppend, h]
      rw [hstep, ih l hl]
      rw [List.take_append_of_le_length h6, List.take_append_of_le_length h6]

theorem pmFilms_scanState (dirs : List YearDir) (key : String) :
    pmFilms (scanState dirs).2 key
      = (((scanStream dirs).filter (fun p => p.1 = key)).map Prod.snd).take 6 := by
  rw [scanState, pmFilms_scan (list_movie_detail_files dirs) ([], []) key]
  rw [show pmFilms (([], []) : List MovieRow × PM).2 key = [] from rfl]
  rw [capAppendAll_take _ [] (by simp)]
  rfl

theorem capAppend_length (l : List Film) (f : Film) (h : l.length ≤ 6) :
    (capAppend l f).length ≤ 6 := by
  unfold capAppend
  by_cases hl : l.length < 6 <;> simp [hl] <;> omega

theorem pmUpdate_entry_cases (pm : PM) (key : String)
    (f : PersonEntry → PersonEntry) :
    ∀ p ∈ pmUpdate pm key f,
      p ∈ pm ∨ ∃ e, p.2 = f e ∧ (e = defaultEntry ∨ ∃ k, (k, e) ∈ pm) := by
  induction pm with
  | nil =>
    intro p hp
    simp only [pmUpdate, List.mem_singleton] at hp
    exact Or.inr ⟨defaultEntry, by rw [hp], Or.inl rfl⟩
  | cons hd tl ih =>
    obtain ⟨kh, e⟩ := hd
    intro p hp
    by_cases hk : kh = key
    · subst hk
      rw [show pmUpdate ((kh, e) :: tl) kh f = (kh, f e) :: tl from by
            simp [pmUpdate],
          List.mem_cons] at hp
      cases hp with
      | inl h => exact Or.inr ⟨e, by rw [h], Or.inr ⟨kh, by simp⟩⟩
      | inr h => exact Or.inl (List.mem_cons_of_mem _ h)
    · simp only [pmUpdate, if_neg hk, List.mem_cons] at hp
      cases hp with
      | inl h => exact Or.inl (by rw [h]; exact List.mem_cons_self _ _)
      | inr h =>
        rcases ih p h with h2 | ⟨e2, he2, hsrc⟩
        · exact Or.inl (List.mem_cons_of_mem _ h2)
        · refine Or.inr ⟨e2, he2, ?_⟩
          rcases hsrc with h2 | ⟨k, hk2⟩
          · exact Or.inl h2
          · exact Or.inr ⟨k, List.mem_cons_of_mem _ hk2⟩

theorem processActors_entries_le6 (mc mn od : String) (acts : List Json) :
    ∀ pm : PM, (∀ p ∈ pm, (p.2 : PersonEntry).films.length ≤ 6) →
      ∀ p ∈ processActors mc mn od pm acts, (p.2 : PersonEntry).films.length ≤ 6 := by
  induction acts with
  | nil => intro pm h p hp; exact h p hp
  | cons a as ih =>
    intro pm h
    by_cases hnm : actorName a = ""
    · have hstep : processActors mc mn od pm (a :: as)
          = processActors mc mn od pm as := by
        simp [processActors, hnm]
      rw [hstep]
      exact ih pm h
    · have hstep : processActors mc mn od pm (a :: as)
          = processActors mc mn od
              (pmUpdate pm (actorKey a) (applyActor mc mn od a)) as := by
        simp [processActors, hnm]
      rw [hstep]
      apply ih
      intro p hp
      rcases pmUpdate_entry_cases pm (actorKey a) (applyActor mc mn od a) p hp with
        hmem | ⟨e, he, hsrc⟩
      · exact h p hmem
      · rw [he, applyActor_films]
        apply capAppend_length
        rcases hsrc with rfl | ⟨k, hk⟩
        · simp [defaultEntry]
        · exact h (k, e) hk

theorem processFile_entries_le6 (st : List MovieRow × PM) (jsOpt : Option Json)
    (hst : ∀ p ∈ st.2, (p.2 : PersonEntry).films.length ≤ 6) :
    ∀ p ∈ (processFile st jsOpt).2, (p.2 : PersonEntry).films.length ≤ 6 := by
  cases jsOpt with
  | none => exact hst
  | some js =>
    by_cases ht : js.truthy
    · have h1 : (processFile st (some js)).2
          = processActors (rowOf js).movieCd (rowOf js).movieNm
              (rowOf js).openDt st.2 (actorsOf js) := by
        simp [processFile, ht]
      rw [h1]
      exact processActors_entries_le6 _ _ _ (actorsOf js) st.2 hst
    · have h1 : processFile st (some js) = st := by simp [processFile, ht]
      rw [h1]; exact hst

theorem scan_entries_le6 (files : List (Option Json)) :
    ∀ st : List MovieRow × PM,
      (∀ p ∈ st.2, (p.2 : PersonEntry).films.length ≤ 6) →
      ∀ p ∈ (files.foldl processFile st).2, (p.2 : PersonEntry).films.length ≤ 6 := by
  induction files with
  | nil => exact fun st h => h
  | cons f fs ih =>
    intro st h
    rw [List.foldl_cons]
    exact ih (processFile st f) (processFile_entries_le6 st f h)

/-! ## Lemmas: the people accumulator — key order (C7) -/

theorem pmKeys_update (pm : PM) (key : String) (f : PersonEntry → PersonEntry) :
    pmKeys (pmUpdate pm key f)
      = if key ∈ pmKeys pm then pmKeys pm else pmKeys pm ++ [key] := by
  induction pm with
  | nil => simp [pmUpdate, pmKeys]
  | cons hd tl ih =>
    obtain ⟨kh, e⟩ := hd
    by_cases hk : kh = key
    · subst hk
      rw [show pmUpdate ((kh, e) :: tl) kh f = (kh, f e) :: tl from by
            simp [pmUpdate]]
      simp [pmKeys]
    · rw [show pmUpdate ((kh, e) :: tl) key f = (kh, e) :: pmUpdate tl key f from by
            simp [pmUpdate, hk]]
      simp only [pmKeys, List.map_cons] at ih ⊢
      rw [ih]
      by_cases hmem : key ∈ tl.map Prod.fst
      · simp [hmem, Ne.symm hk]
      · simp [hmem, Ne.symm hk]

/-- The `if k ∈ cur then cur else cur ++ [k]` accumulation of fresh keys,
in encounter order. -/
def addKeys (cur ks : List String) : List String :=
  ks.foldl (fun cur k => if k ∈ cur then cur else cur ++ [k]) cur

theorem pmKeys_processActors (mc mn od : String) (acts : List Json) :
    ∀ pm : PM,
      pmKeys (processActors mc mn od pm acts)
        = addKeys (pmKeys pm)
            ((acts.filterMap (creditOf mc mn od)).map Prod.fst) := by
  induction acts with
  | nil => intro pm; rfl
  | cons a as ih =>
    intro pm
    by_cases hnm : actorName a = ""
    · have hstep : processActors mc mn od pm (a :: as)
          = processActors mc mn od pm as := by
        simp [processActors, hnm]
      rw [hstep, ih]
      simp [creditOf, hnm]
    · have hstep : processActors mc mn od pm (a :: as)
          = processActors mc mn od
              (pmUpdate pm (actorKey a) (applyActor mc mn od a)) as := by
        simp [processActors, hnm]
      rw [hstep, ih, pmKeys_update]
      rw [show ((a :: as).filterMap (creditOf mc mn od)).map Prod.fst
            = actorKey a :: (as.filterMap (creditOf mc mn od)).map Prod.fst from by
          simp [creditOf, hnm]]
      rfl

theorem pmKeys_processFile (st : List MovieRow × PM) (jsOpt : Option Json) :
    pmKeys (processFile st jsOpt).2
      = addKeys (pmKeys st.2) ((fileStream jsOpt).map Prod.fst) := by
  cases jsOpt with
  | none => rfl
  | some js =>
    by_cases ht : js.truthy
    · have h1 : (processFile st (some js)).2
          = processActors (rowOf js).movieCd (rowOf js).movieNm
              (rowOf js).openDt st.2 (actorsOf js) := by
        simp [processFile, ht]
      rw [h1, fileStream_eq]
      simp only [ht, Bool.not_true, if_false]
      exact pmKeys_processActors _ _ _ (actorsOf js) st.2
    · have h1 : processFile st (some js) = st := by simp [processFile, ht]
      rw [h1, fileStream_eq]
      simp [ht, addKeys]

theorem addKeys_append (cur ks1 ks2 : List String) :
    addKeys cur (ks1 ++ ks2) = addKeys (addKeys cur ks1) ks2 := by
  unfold addKeys
  rw [List.foldl_append]

theorem pmKeys_scan (files : List (Option Json)) :
    ∀ st : List MovieRow × PM,
      pmKeys ((files.foldl processFile st).2)
        = addKeys (pmKeys st.2)
            (((files.map fileStream).flatten).map Prod.fst) := by
  induction files with
  | nil => intro st; rfl
  | cons f fs ih =>
    intro st
    rw [List.foldl_cons, ih (processFile st f), pmKeys_processFile]
    rw [List.map_cons, List.flatten_cons, List.map_append, addKeys_append]

theorem addKeys_dedupFirst (ks : List String) :
    ∀ cur : List String,
      addKeys cur ks = cur ++ dedupFirst (ks.filter fun k => decide (¬ k ∈ cur)) := by
  induction ks with
  | nil => intro cur; simp [addKeys, dedupFirst]
  | cons k ks ih =>
    intro cur
    by_cases hk : k ∈ cur
    · rw [show addKeys cur (k :: ks) = addKeys cur ks from by simp [addKeys, hk],
          ih]
      rw [show (k :: ks).filter (fun x => decide (¬ x ∈ cur))
            = ks.filter (fun x => decide (¬ x ∈ cur)) from by simp [hk]]
    · rw [show addKeys cur (k :: ks) = addKeys (cur ++ [k]) ks from by
            simp [addKeys, hk],
          ih (cur ++ [k])]
      rw [show (k :: ks).filter (fun x => decide (¬ x ∈ cur))
            = k :: ks.filter (fun x => decide (¬ x ∈ cur)) from by simp [hk]]
      rw [dedupFirst]
      have hfilter : ks.filter (fun x => decide (¬ x ∈ cur ++ [k]))
          = (ks.filter (fun x => decide (¬ x ∈ cur))).filter (fun x => x ≠ k) := by
        rw [List.filter_filter]
        apply List.filter_congr
        intro x _
        simp only [List.mem_append, List.mem_singleton, not_or, decide_not]
        cases hxc : decide (x ∈ cur) <;> cases hxk : decide (x = k) <;>
          simp_all
      rw [hfilter]
      simp [List.append_assoc]

theorem pmKeys_scanState (dirs : List YearDir) :
    pmKeys (scanState dirs).2 = dedupFirst ((scanStream dirs).map Prod.fst) := by
  rw [scanState, pmKeys_scan (list_movie_detail_files dirs) ([], [])]
  rw [show pmKeys (([], []) : List MovieRow × PM).2 = [] from rfl]
  rw [addKeys_dedupFirst]
  rw [show ((((list_movie_detail_files dirs).map fileStream).flatten).map
        Prod.fst).filter (fun k => decide (¬ k ∈ ([] : List String)))
      = (((list_movie_detail_files dirs).map fileStream).flatten).map Prod.fst from by
    apply List.filter_eq_self.mpr
    intro a _
    simp]
  rfl

end IDX

/-- C7 counterexample: two cached titles scanned in date order 2020 then
2021, with actor P1 in both and actor P0 ("A-name") only in the second.
The produced PersonIndex lists P1's filmography as [2020, 2021] — oldest
first, not release-date descending — and the person list as
["B-name", "A-name"] — first-encounter order, not sorted by display name.
The claimed orderings are both violated. -/
theorem C7_counterexample :
    ((IDX.build_indices
        [⟨"2020",
          [some (.obj [("movieCd", .s "M1"), ("movieNm", .s "One"),
              ("openDt", .s "20200101"),
              ("actors", .arr [.obj [("peopleNm", .s "B-name"),
                ("peopleCd", .s "P1")]])]),
           some (.obj [("movieCd", .s "M2"), ("movieNm", .s "Two"),
              ("openDt", .s "20210101"),
              ("actors", .arr [.obj [("peopleNm", .s "B-name"),
                  ("peopleCd", .s "P1")],
                .obj [("peopleNm", .s "A-name"),
                  ("peopleCd", .s "P0")]])])]⟩]
        0).peopleDoc.people.map IDX.PersonEntry.peopleNm
      = ["B-name", "A-name"])
    ∧ ((IDX.build_indices
        [⟨"2020",
          [some (.obj [("movieCd", .s "M1"), ("movieNm", .s "One"),
              ("openDt", .s "20200101"),
              ("actors", .arr [.obj [("peopleNm", .s "B-name"),
                ("peopleCd", .s "P1")]])]),
           some (.obj [("movieCd", .s "M2"), ("movieNm", .s "Two"),
              ("openDt", .s "20210101"),
              ("actors", .arr [.obj [("peopleNm", .s "B-name"),
                  ("peopleCd", .s "P1")],
                .obj [("peopleNm", .s "A-name"),
                  ("peopleCd", .s "P0")]])])]⟩]
        0).peopleDoc.people.map (fun e => e.films.map IDX.Film.openDt)
      = [["20200101", "20210101"], ["20210101"]])
    ∧ ¬ ((∀ e ∈ (IDX.build_indices
        [⟨"2020",
          [some (.obj [("movieCd", .s "M1"), ("movieNm", .s "One"),
              ("openDt", .s "20200101"),
              ("actors", .arr [.obj [("peopleNm", .s "B-name"),
                ("peopleCd", .s "P1")]])]),
           some (.obj [("movieCd", .s "M2"), ("movieNm", .s "Two"),
              ("openDt", .s "20210101"),
              ("actors", .arr [.obj [("peopleNm", .s "B-name"),
                  ("peopleCd", .s "P1")],
                .obj [("peopleNm", .s "A-name"),
                  ("peopleCd", .s "P0")]])])]⟩]
        0).peopleDoc.people,
          e.films.Pairwise (fun a b =>
            IDX.dateEnc ((IDX.ymd_to_date b.openDt).getD IDX.dateMin)
              ≤ IDX.dateEnc ((IDX.ymd_to_date a.openDt).getD IDX.dateMin)))
      ∧ ((IDX.build_indices
        [⟨"2020",
          [some (.obj [("movieCd", .s "M1"), ("movieNm", .s "One"),
              ("openDt", .s "20200101"),
              ("actors", .arr [.obj [("peopleNm", .s "B-name"),
                ("peopleCd", .s "P1")]])]),
           some (.obj [("movieCd", .s "M2"), ("movieNm", .s "Two"),
              ("openDt", .s "20210101"),
              ("actors", .arr [.obj [("peopleNm", .s "B-name"),
                  ("peopleCd", .s "P1")],
                .obj [("peopleNm", .s "A-name"),
                  ("peopleCd", .s "P0")]])])]⟩]
        0).peopleDoc.people.map IDX.PersonEntry.peopleNm).Pairwise
          (fun a b => strLe a b = true)) :=
  ⟨by decide, by decide, by decide⟩

/-- C7 as amended: the index builder applies no sorting to the person
data. Each person's stored filmography is exactly the first six of that
person's credits in cache-scan encounter order (`scanStream`), and the
person list is keyed in first-encounter order (`dedupFirst` of the credit
stream's keys) — neither release-date-descending filmographies nor a
name-sorted person list. -/
theorem C7_amended (dirs : List IDX.YearDir) (now : Nat) (key : String) :
    (IDX.build_indices dirs now).peopleDoc.people
        = (IDX.scanState dirs).2.map Prod.snd
    ∧ IDX.pmFilms (IDX.scanState dirs).2 key
        = (((IDX.scanStream dirs).filter (fun p => p.1 = key)).map Prod.snd).take 6
    ∧ IDX.pmKeys (IDX.scanState dirs).2
        = IDX.dedupFirst ((IDX.scanStream dirs).map Prod.fst) :=
  ⟨rfl, IDX.pmFilms_scanState dirs key, IDX.pmKeys_scanState dirs⟩

/-- C10: every person entry the index builder produces carries at most 6
filmography entries, and applying a further credit to an entry already
holding 6 films (with its names set) changes nothing — the title is
silently not appended and the other fields stay as they were. -/
theorem C10_filmography_cap (dirs : List IDX.YearDir) (now : Nat) :
    (∀ e ∈ (IDX.build_indices dirs now).peopleDoc.people, e.films.length ≤ 6)
    ∧ (∀ (mc mn od : String) (a : Json) (e : IDX.PersonEntry),
        e.peopleNm ≠ "" → e.films.length = 6 →
        IDX.applyActor mc mn od a e = e) := by
  constructor
  · intro e he
    have he2 : e ∈ ((IDX.list_movie_detail_files dirs).foldl IDX.processFile
        ([], [])).2.map Prod.snd := he
    obtain ⟨p, hp, hpe⟩ := List.mem_map.mp he2
    have hlen := IDX.scan_entries_le6 (IDX.list_movie_detail_files dirs)
      ([], []) (by simp) p hp
    rw [hpe] at hlen
    exact hlen
  · intro mc mn od a e hnm hlen
    unfold IDX.applyActor
    simp [hnm, hlen]

/-- Witness for C10: the single entry produced from one cached title has
at most 6 films, and a 6-film entry absorbs a further credit unchanged. -/
theorem C10_filmography_cap_witness :
    ((⟨"P1", "B-name", "배우", [⟨"M1", "One", "20200101", ""⟩]⟩ :
        IDX.PersonEntry).films.length ≤ 6)
    ∧ IDX.applyActor "M" "N" "20200101" jEmptyObj
        ⟨"PX", "X", "배우", List.replicate 6 ⟨"M", "N", "20200101", ""⟩⟩
      = ⟨"PX", "X", "배우", List.replicate 6 ⟨"M", "N", "20200101", ""⟩⟩ := by
  obtain ⟨h1, h2⟩ := C10_filmography_cap
    [⟨"2020",
      [some (.obj [("movieCd", .s "M1"), ("movieNm", .s "One"),
          ("openDt", .s "20200101"),
          ("actors", .arr [.obj [("peopleNm", .s "B-name"),
            ("peopleCd", .s "P1")]])])]⟩] 0
  exact ⟨h1 _ (by decide),
         h2 "M" "N" "20200101" jEmptyObj _ (by decide) (by decide)⟩

/-! ## Lemmas: shape detection (C9) -/

namespace BFP

theorem pyDictGet_orEmpty (j : Json) (k : String) (h : isObj j = true) :
    pyDictGet (pyOr j jEmptyObj) k = .ok (j.get k) := by
  cases j with
  | obj fs =>
    cases fs with
    | nil => rfl
    | cons f fs => rfl
  | null => simp [isObj] at h
  | b v => simp [isObj] at h
  | i v => simp [isObj] at h
  | s v => simp [isObj] at h
  | arr xs => simp [isObj] at h

theorem pyDictGet_ok (j : Json) (k : String)
    (h : j.truthy = false ∨ isObj j = true) :
    pyDictGet (pyOr j jEmptyObj) k = .ok ((pyOr j jEmptyObj).get k) := by
  rcases h with h | h
  · rw [pyOr, if_neg (by simp [h])]
    rfl
  · rw [pyDictGet_orEmpty j k h]
    cases j with
    | obj fs =>
      cases fs with
      | nil => rfl
      | cons f fs => rfl
    | null => simp [isObj] at h
    | b v => simp [isObj] at h
    | i v => simp [isObj] at h
    | s v => simp [isObj] at h
    | arr xs => simp [isObj] at h

theorem backfillScan_skip (f : Option Json) (rest : List (Option Json))
    (skipped cands : Nat)
    (h : get_shape (pyOr (f.getD Json.null) jEmptyObj) = .ok ("none", jEmptyObj)) :
    backfillScan (f :: rest) skipped cands
      = backfillScan rest (skipped + 1) cands := by
  conv_lhs => unfold backfillScan
  rw [h]
  simp

end BFP

/-- C9 counterexample: the object `\x7b"movieNm": "T"\x7d` carries a
recoverable title but no id in either shape, and `get_shape` rejects it
with the ("none", empty) signal — so the signal is not produced "only
when neither an id nor a title can be recovered": a title-only object is
rejected. -/
theorem C9_counterexample :
    BFP.get_shape (.obj [("movieNm", .s "T")]) = .ok ("none", jEmptyObj)
    ∧ (Json.obj [("movieNm", .s "T")]).getStrD "movieNm" "" = "T"
    ∧ ("T" : String) ≠ "" :=
  ⟨rfl, rfl, by decide⟩

/-- C9 as amended: for a JSON object whose envelope fields
(`movieInfoResult`, and the `movieInfo` below it) are each absent, falsy
or objects, `get_shape` returns without exception, and the ("none", ...)
signal is produced exactly when no truthy `movieCd` is recoverable from
the flat or the one-level-nested shape — whether a title is recoverable
plays no role. The caller's loop treats a "none" file as skip-and-count
and continues with the remaining files. -/
theorem C9_amended (raw : Json) (hobj : BFP.isObj raw = true)
    (h1 : (raw.get "movieInfoResult").truthy = false
        ∨ BFP.isObj (raw.get "movieInfoResult") = true)
    (h2 : ((pyOr (raw.get "movieInfoResult") jEmptyObj).get "movieInfo").truthy = false
        ∨ BFP.isObj
            ((pyOr (raw.get "movieInfoResult") jEmptyObj).get "movieInfo") = true) :
    (∃ sh, BFP.get_shape raw = .ok sh)
    ∧ (BFP.get_shape raw = .ok ("none", jEmptyObj)
        ↔ ((raw.get "movieCd").truthy = false
           ∧ ((pyOr ((pyOr (raw.get "movieInfoResult") jEmptyObj).get "movieInfo")
                jEmptyObj).get "movieCd").truthy = false))
    ∧ (∀ (f : Option Json) (rest : List (Option Json)) (skipped cands : Nat),
        BFP.get_shape (pyOr (f.getD Json.null) jEmptyObj) = .ok ("none", jEmptyObj) →
        BFP.backfillScan (f :: rest) skipped cands
          = BFP.backfillScan rest (skipped + 1) cands) := by
  have ha := BFP.pyDictGet_orEmpty raw "movieInfoResult" hobj
  have hb := BFP.pyDictGet_ok (raw.get "movieInfoResult") "movieInfo" h1
  have hcd := BFP.pyDictGet_ok
    ((pyOr (raw.get "movieInfoResult") jEmptyObj).get "movieInfo") "movieCd" h2
  by_cases hflat : (raw.get "movieCd").truthy = true
  · have hs : BFP.get_shape raw = .ok ("flat", raw) := by
      unfold BFP.get_shape
      rw [if_pos (by simp [hobj, hflat])]
    refine ⟨⟨("flat", raw), hs⟩, ?_, fun f r s c h => BFP.backfillScan_skip f r s c h⟩
    rw [hs]
    constructor
    · intro h
      simp only [Except.ok.injEq, Prod.mk.injEq] at h
      exact absurd h.1 (by decide)
    · rintro ⟨hc, _⟩
      rw [hflat] at hc
      exact absurd hc (by decide)
  · have hcf : (raw.get "movieCd").truthy = false := by
      revert hflat; cases (raw.get "movieCd").truthy <;> simp
    have hff : (BFP.isObj raw && (raw.get "movieCd").truthy) = false := by
      simp [hcf]
    by_cases hcd2 : ((pyOr ((pyOr (raw.get "movieInfoResult") jEmptyObj).get
        "movieInfo") jEmptyObj).get "movieCd").truthy = true
    · have hs : BFP.get_shape raw
          = .ok ("raw", pyOr ((pyOr (raw.get "movieInfoResult") jEmptyObj).get
              "movieInfo") jEmptyObj) := by
        simp [BFP.get_shape, hff, ha, hb, hcd, hcd2]
      refine ⟨⟨_, hs⟩, ?_, fun f r s c h => BFP.backfillScan_skip f r s c h⟩
      rw [hs]
      constructor
      · intro h
        simp only [Except.ok.injEq, Prod.mk.injEq] at h
        exact absurd h.1 (by decide)
      · rintro ⟨_, hc⟩
        rw [hcd2] at hc
        exact absurd hc (by decide)
    · have hcf2 : ((pyOr ((pyOr (raw.get "movieInfoResult") jEmptyObj).get
          "movieInfo") jEmptyObj).get "movieCd").truthy = false := by
        revert hcd2
        cases ((pyOr ((pyOr (raw.get "movieInfoResult") jEmptyObj).get
          "movieInfo") jEmptyObj).get "movieCd").truthy <;> simp
      have hs : BFP.get_shape raw = .ok ("none", jEmptyObj) := by
        simp [BFP.get_shape, hff, ha, hb, hcd, hcf2]
      refine ⟨⟨_, hs⟩, ?_, fun f r s c h => BFP.backfillScan_skip f r s c h⟩
      rw [hs]
      exact ⟨fun _ => ⟨hcf, hcf2⟩, fun _ => rfl⟩

/-- Witness for C9 at concrete inputs: the title-only object yields the
signal, and the scan counts it as skipped while the next file (a flat
record with an id) is still processed as a candidate. -/
theorem C9_amended_witness :
    BFP.get_shape (.obj [("movieNm", .s "T")]) = .ok ("none", jEmptyObj)
    ∧ BFP.backfillScan
        [some (.obj [("movieNm", .s "T")]), some (.obj [("movieCd", .s "M")])] 0 0
      = .ok (1, 1) := by
  obtain ⟨hex, hiff, hskip⟩ := C9_amended (.obj [("movieNm", .s "T")]) rfl
    (Or.inl (by decide)) (Or.inl (by decide))
  have hs : BFP.get_shape (.obj [("movieNm", .s "T")]) = .ok ("none", jEmptyObj) :=
    hiff.mpr ⟨by decide, by decide⟩
  have hx : BFP.get_shape
      (pyOr ((some (Json.obj [("movieNm", Json.s "T")])).getD Json.null) jEmptyObj)
      = .ok ("none", jEmptyObj) := hs
  refine ⟨hs, ?_⟩
  rw [hskip (some (.obj [("movieNm", .s "T")])) _ 0 0 hx]
  rfl
